import Mathlib

/-!
# Phase-known Diversity Outcross cross model (`src/src/cross_dopk.cpp`)

A shallow embedding of the `DOPK` member functions and proofs of their
specification.

Modelling conventions.

* C++ `int` values are `Int`.  The sum `f1 + f2` of two arbitrary vector
  entries in `emit` is guarded explicitly against leaving the 32-bit range
  (`add_int`).  The index computations `x - 1` and `true_gen - n_geno - 1`
  could only overflow downwards, where the unbounded result is a negative
  index and the read is reported as out of bounds all the same.
* C++ `double` values are elements of a field `α` (exact arithmetic); the
  theorems about numeric values instantiate `α := ℝ`.  `log` from `<math.h>`
  is a parameter, instantiated with `Real.log`.
* `IntegerVector` / `NumericVector` / `LogicalVector` are lists; reading
  outside the vector is undefined behaviour in C++ and is reported as
  `Err.out_of_bounds`.  Matrices are stored column by column; an access
  `m(i, j)` whose linear index `i + j * nrow` is outside the storage is
  reported as `Err.subscript_out_of_bounds i j`.  For `geno2allele_matrix`
  there is, besides this checked reading, the reading with Rcpp's unchecked
  indexing (`geno2allele_matrix_unchecked`), in which a store outside the
  storage alters no cell of the matrix; it gives the cells of the matrix
  that is handed back.
* `NA_REAL` is the separate value `Numeric.NA_REAL`; the validators return
  their flag together with the messages passed to `r_message`.
* `throw` / `Rcpp::stop` are `Except.error`.
* The compile-time switch `NDEBUG`, and the functions of other translation
  units that this file calls (`mpp_decode_geno` of `cross_util.h`, the
  `DOrec_*` functions of `cross_do_util.h`), are the fields of `Env`.
-/

namespace DOPK

set_option linter.unusedVariables false

/-- Ways in which a call can fail to return a value. -/
inductive Err where
  /-- Thrown as `std::range_error("genotype value not allowed")`. -/
  | range_error
  /-- Thrown as `std::invalid_argument("precc_gen and precc_alpha should be the same length")`. -/
  | invalid_argument
  /-- Raised by `Rcpp::stop("est_map not yet available for Diversity Outcross")`. -/
  | stop
  /-- A vector read outside its bounds (undefined behaviour). -/
  | out_of_bounds
  /-- Signed 32-bit overflow (undefined behaviour). -/
  | int_overflow
  /-- A matrix element `result(row, col)` accessed outside the storage of the
  matrix (undefined behaviour). -/
  | subscript_out_of_bounds (row col : Int)
  deriving DecidableEq, Repr

/-- What `cross_dopk.cpp` takes from outside: the `NDEBUG` switch, `log`, and
the functions declared in `cross_util.h` and `cross_do_util.h`. -/
structure Env (α : Type) where
  /-- True when `NDEBUG` is defined (release build: the `#ifndef NDEBUG` blocks are skipped). -/
  ndebug : Bool
  /-- The function `log` of `<math.h>`. -/
  log : α → α
  /-- The call `mpp_decode_geno(true_gen, n_alleles, phase_known)`; the result vector has two entries. -/
  mpp_decode_geno : Int → Int → Bool → Int × Int
  /-- The call `DOrec_auto(r, s, precc_gen, precc_alpha)`. -/
  DOrec_auto : α → Int → List Int → List α → α
  /-- The call `DOrec_femX(r, s, precc_gen, precc_alpha)`. -/
  DOrec_femX : α → Int → List Int → List α → α
  /-- The call `DOrec_malX(r, s, precc_gen, precc_alpha)`. -/
  DOrec_malX : α → Int → List Int → List α → α

/-! ## `enum gen {A=1, H=2, B=3, notA=5, notB=4}` -/

/-- Enumerator `A` of `enum gen`. -/
def A : Int := 1
/-- Enumerator `H` of `enum gen`. -/
def H : Int := 2
/-- Enumerator `B` of `enum gen`. -/
def B : Int := 3
/-- Enumerator `notA` of `enum gen`. -/
def notA : Int := 5
/-- Enumerator `notB` of `enum gen`. -/
def notB : Int := 4

/-! ## Vectors and 32-bit integers -/

/-- Smallest `int`; also R's `NA_INTEGER`. -/
def INT_MIN : Int := -2147483648
/-- Largest `int`. -/
def INT_MAX : Int := 2147483647
/-- R's missing integer. -/
def NA_INTEGER : Int := INT_MIN

/-- Reading `v[i]` with an `int` index. -/
def vec_get {β : Type} (v : List β) (i : Int) : Except Err β :=
  if 0 ≤ i then
    match v[i.toNat]? with
    | some x => .ok x
    | none => .error .out_of_bounds
  else .error .out_of_bounds

/-- Signed 32-bit addition of two `int`s. -/
def add_int (a b : Int) : Except Err Int :=
  if INT_MIN ≤ a + b ∧ a + b ≤ INT_MAX then .ok (a + b) else .error .int_overflow

/-! ## `check_geno`, `possible_gen`, `ngen`, `nalleles` -/

/-- Models `DOPK::check_geno` (the `cross_info` argument is unused). -/
def check_geno (gen : Int) (is_observed_value is_x_chr is_female : Bool) : Bool :=
  if is_observed_value then
    if gen = 0 ∨ gen = A ∨ gen = H ∨ gen = B ∨ gen = notA ∨ gen = notB then true
    else false
  else
    let n_alleles : Int := 8
    let n_geno : Int := 64
    if !is_x_chr || is_female then
      if gen ≥ 1 ∧ gen ≤ n_geno then true else false
    else
      if gen ≥ n_geno + 1 ∧ gen ≤ n_geno + n_alleles then true else false

/-- Models `DOPK::possible_gen` (the `cross_info` argument is unused): the loops
`result[i] = n_geno+i+1` and `result[i] = i+1`. -/
def possible_gen (is_x_chr is_female : Bool) : List Int :=
  let n_alleles : Nat := 8
  let n_geno : Nat := 64
  if is_x_chr && !is_female then
    (List.range n_alleles).map (fun (i : Nat) => (n_geno : Int) + (i : Int) + 1)
  else
    (List.range n_geno).map (fun (i : Nat) => (i : Int) + 1)

/-- Models `DOPK::ngen`. -/
def ngen (is_x_chr : Bool) : Int :=
  let n_alleles : Int := 8
  let n_geno : Int := 64
  if is_x_chr then n_geno + n_alleles else n_geno

/-- Models `DOPK::nalleles`. -/
def nalleles : Int := 8

section Numeric

variable {α : Type} [Field α]

/-! ## `init` -/

/-- Models `DOPK::init` (the `cross_info` argument is unused). -/
def init (E : Env α) (true_gen : Int) (is_x_chr is_female : Bool) : Except Err α :=
  if !E.ndebug && !check_geno true_gen false is_x_chr is_female then
    .error .range_error
  else if !is_x_chr || is_female then
    .ok (-E.log 64)
  else
    .ok (-E.log 8)

/-! ## `emit`

A `switch` is modelled with its fall-through: each inner `switch(obs_gen)`
is a function to `Option α`, `none` meaning that no `case` label matched, so
that control leaves the inner `switch` and runs into the next `case` of the
outer one (there is no `break`). -/

/-- Inner `switch(obs_gen)` under `case A` when one founder allele is observed. -/
def emit_one_caseA (E : Env α) (obs_gen : Int) (error_prob : α) : Option α :=
  if obs_gen = A ∨ obs_gen = notB then some (E.log (1 - error_prob))
  else if obs_gen = B ∨ obs_gen = notA then some (E.log error_prob)
  else if obs_gen = H then some 0
  else none

/-- Inner `switch(obs_gen)` under `case B` when one founder allele is observed. -/
def emit_one_caseB (E : Env α) (obs_gen : Int) (error_prob : α) : Option α :=
  if obs_gen = B ∨ obs_gen = notA then some (E.log (1 - error_prob))
  else if obs_gen = A ∨ obs_gen = notB then some (E.log error_prob)
  else if obs_gen = H then some 0
  else none

/-- Inner `switch(obs_gen)` under `case A` of `switch((f1+f2)/2)`. -/
def emit_both_caseA (E : Env α) (obs_gen : Int) (error_prob : α) : Option α :=
  if obs_gen = A then some (E.log (1 - error_prob))
  else if obs_gen = H then some (E.log (error_prob / 2))
  else if obs_gen = B then some (E.log (error_prob / 2))
  else if obs_gen = notA then some (E.log error_prob)
  else if obs_gen = notB then some (E.log (1 - error_prob / 2))
  else none

/-- Inner `switch(obs_gen)` under `case H` of `switch((f1+f2)/2)`. -/
def emit_both_caseH (E : Env α) (obs_gen : Int) (error_prob : α) : Option α :=
  if obs_gen = A then some (E.log (error_prob / 2))
  else if obs_gen = H then some (E.log (1 - error_prob))
  else if obs_gen = B then some (E.log (error_prob / 2))
  else if obs_gen = notA then some (E.log (1 - error_prob / 2))
  else if obs_gen = notB then some (E.log (1 - error_prob / 2))
  else none

/-- Inner `switch(obs_gen)` under `case B` of `switch((f1+f2)/2)`. -/
def emit_both_caseB (E : Env α) (obs_gen : Int) (error_prob : α) : Option α :=
  if obs_gen = B then some (E.log (1 - error_prob))
  else if obs_gen = H then some (E.log (error_prob / 2))
  else if obs_gen = A then some (E.log (error_prob / 2))
  else if obs_gen = notB then some (E.log error_prob)
  else if obs_gen = notA then some (E.log (1 - error_prob / 2))
  else none

/-- Inner `switch(obs_gen)` under `case A` of the male X `switch(founder_allele)`. -/
def emit_malX_caseA (E : Env α) (obs_gen : Int) (error_prob : α) : Option α :=
  if obs_gen = A ∨ obs_gen = notB then some (E.log (1 - error_prob))
  else if obs_gen = B ∨ obs_gen = notA then some (E.log error_prob)
  else none

/-- Inner `switch(obs_gen)` under `case B` of the male X `switch(founder_allele)`. -/
def emit_malX_caseB (E : Env α) (obs_gen : Int) (error_prob : α) : Option α :=
  if obs_gen = B ∨ obs_gen = notA then some (E.log (1 - error_prob))
  else if obs_gen = A ∨ obs_gen = notB then some (E.log error_prob)
  else none

/-- Models `DOPK::emit` (the `cross_info` argument is unused).  The trailing
`return 0.0` after each outer `switch` is the `getD 0` / final `else`. -/
def emit (E : Env α) (obs_gen true_gen : Int) (error_prob : α) (founder_geno : List Int)
    (is_x_chr is_female : Bool) : Except Err α :=
  if !E.ndebug && !check_geno true_gen false is_x_chr is_female then
    .error .range_error
  else
    let n_geno : Int := 64
    if obs_gen = 0 then .ok 0
    else if !is_x_chr || is_female then
      let true_alleles := E.mpp_decode_geno true_gen 8 true
      (vec_get founder_geno (true_alleles.1 - 1)).bind fun f1 =>
      (vec_get founder_geno (true_alleles.2 - 1)).bind fun f2 =>
      let f1 := if f1 = 2 then 0 else f1
      let f2 := if f2 = 2 then 0 else f2
      if f1 = 0 ∧ f2 = 0 then .ok 0
      else if f1 = 0 ∨ f2 = 0 then
        let m := max f1 f2
        if m = H then .ok 0
        else if m = A then
          .ok ((emit_one_caseA E obs_gen error_prob <|> emit_one_caseB E obs_gen error_prob).getD 0)
        else if m = B then
          .ok ((emit_one_caseB E obs_gen error_prob).getD 0)
        else .ok 0
      else
        (add_int f1 f2).bind fun sum =>
        let c := Int.tdiv sum 2
        if c = A then
          .ok ((emit_both_caseA E obs_gen error_prob <|> emit_both_caseH E obs_gen error_prob
                <|> emit_both_caseB E obs_gen error_prob).getD 0)
        else if c = H then
          .ok ((emit_both_caseH E obs_gen error_prob
                <|> emit_both_caseB E obs_gen error_prob).getD 0)
        else if c = B then
          .ok ((emit_both_caseB E obs_gen error_prob).getD 0)
        else .ok 0
    else
      (vec_get founder_geno ((true_gen - n_geno) - 1)).bind fun founder_allele =>
      if founder_allele = A then
        .ok ((emit_malX_caseA E obs_gen error_prob <|> emit_malX_caseB E obs_gen error_prob).getD 0)
      else if founder_allele = B then
        .ok ((emit_malX_caseB E obs_gen error_prob).getD 0)
      else .ok 0

/-! ## `step` -/

/-- Models `DOPK::step_auto`. -/
def step_auto (E : Env α) (left right : Int) (r : α) (s : Int)
    (precc_gen : List Int) (precc_alpha : List α) : Except Err α :=
  if !E.ndebug && precc_gen.length ≠ precc_alpha.length then
    .error .invalid_argument
  else
    let leftv := E.mpp_decode_geno left 8 true
    let rightv := E.mpp_decode_geno right 8 true
    let left1 := leftv.1
    let left2 := leftv.2
    let right1 := rightv.1
    let right2 := rightv.2
    let recprob := E.DOrec_auto r s precc_gen precc_alpha
    if left1 = left2 then
      if right1 = right2 then
        if left1 = right1 then .ok (2 * E.log (1 - recprob))
        else .ok (2 * E.log recprob - E.log 49)
      else
        if left1 = right1 ∨ left1 = right2 then
          .ok (E.log recprob + E.log (1 - recprob) - E.log 7)
        else .ok (2 * E.log recprob - E.log 49)
    else
      if right1 = right2 then
        if left1 = right1 ∨ left2 = right1 then
          .ok (E.log recprob + E.log (1 - recprob) - E.log 7)
        else .ok (2 * E.log recprob - E.log 49)
      else
        if left1 = right1 ∧ left2 = right2 then .ok (2 * E.log (1 - recprob))
        else if left1 = right2 ∧ left2 = right1 then .ok (2 * E.log recprob - E.log 49)
        else if left1 = right1 ∨ left2 = right2 then
          .ok (E.log recprob + E.log (1 - recprob) - E.log 7)
        else if left2 = right1 ∨ left2 = right2 then .ok (2 * E.log recprob - E.log 49)
        else .ok (2 * E.log recprob - E.log 49)

/-- Models `DOPK::step_femX`. -/
def step_femX (E : Env α) (left right : Int) (r : α) (s : Int)
    (precc_gen : List Int) (precc_alpha : List α) : Except Err α :=
  if !E.ndebug && precc_gen.length ≠ precc_alpha.length then
    .error .invalid_argument
  else
    let leftv := E.mpp_decode_geno left 8 true
    let rightv := E.mpp_decode_geno right 8 true
    let left1 := leftv.1
    let left2 := leftv.2
    let right1 := rightv.1
    let right2 := rightv.2
    let recprob := E.DOrec_femX r s precc_gen precc_alpha
    if left1 = left2 then
      if right1 = right2 then
        if left1 = right1 then .ok (2 * E.log (1 - recprob))
        else .ok (2 * E.log recprob - E.log 49)
      else
        if left1 = right1 ∨ left1 = right2 then
          .ok (E.log recprob + E.log (1 - recprob) - E.log 7)
        else .ok (2 * E.log recprob - E.log 49)
    else
      if right1 = right2 then
        if left1 = right1 ∨ left2 = right1 then
          .ok (E.log recprob + E.log (1 - recprob) - E.log 7)
        else .ok (2 * E.log recprob - E.log 49)
      else
        if left1 = right1 ∧ left2 = right2 then .ok (2 * E.log (1 - recprob))
        else if left1 = right2 ∧ left2 = right1 then .ok (2 * E.log recprob - E.log 49)
        else if left1 = right1 ∨ left2 = right2 then
          .ok (E.log recprob + E.log (1 - recprob) - E.log 7)
        else if left2 = right1 ∨ left2 = right2 then .ok (2 * E.log recprob - E.log 49)
        else .ok (2 * E.log recprob - E.log 49)

/-- Models `DOPK::step_malX`. -/
def step_malX (E : Env α) (left right : Int) (r : α) (s : Int)
    (precc_gen : List Int) (precc_alpha : List α) : Except Err α :=
  if !E.ndebug && precc_gen.length ≠ precc_alpha.length then
    .error .invalid_argument
  else
    let recprob := E.DOrec_malX r s precc_gen precc_alpha
    if left = right then .ok (E.log (1 - recprob))
    else .ok (E.log recprob - E.log 7)

/-- The static table `precc_gen` of `DOPK::step`. -/
def precc_gen : List Int := [4, 5, 6, 7, 8, 9, 10, 11, 12]

/-- The static table `precc_alpha` of `DOPK::step`. -/
def precc_alpha : List α :=
  [21 / 144, 64 / 144, 24 / 144, 10 / 144, 5 / 144, 9 / 144, 5 / 144, 3 / 144, 3 / 144]

/-- Models `DOPK::step`. -/
def step (E : Env α) (gen_left gen_right : Int) (rec_frac : α)
    (is_x_chr is_female : Bool) (cross_info : List Int) : Except Err α :=
  if !E.ndebug && (!check_geno gen_left false is_x_chr is_female ||
      !check_geno gen_right false is_x_chr is_female) then
    .error .range_error
  else
    (vec_get cross_info 0).bind fun n_gen =>
    if is_x_chr then
      if is_female then
        step_femX E gen_left gen_right rec_frac n_gen precc_gen precc_alpha
      else
        step_malX E gen_left gen_right rec_frac n_gen precc_gen precc_alpha
    else
      step_auto E gen_left gen_right rec_frac n_gen precc_gen precc_alpha

end Numeric

/-! ## `check_crossinfo` -/

/-- Diagnostics passed to `r_message`. -/
inductive Message where
  /-- Text "cross_info not provided, but should at least one column, with no. generations". -/
  | cross_info_not_provided
  /-- Text "cross_info has missing values (it shouldn't)". -/
  | cross_info_missing
  /-- Text "cross_info has invalid values; no. generations should be >= 1". -/
  | cross_info_invalid
  /-- Text "is_female not provided, but needed to handle X chromosome". -/
  | is_female_not_provided
  /-- Text "is_female contains missing values (it shouldn't)". -/
  | is_female_missing
  /-- Text saying that founder_geno contains invalid values and should be in 0, 1, 3. -/
  | founder_geno_invalid
  deriving DecidableEq, Repr

/-- An Rcpp `IntegerMatrix`: `nrow * ncol` entries stored column by column, so
that the linear index of entry `(i, j)` is `i + j * nrow`. -/
structure IntegerMatrix where
  /-- Value of `rows()`. -/
  nrow : Nat
  /-- Value of `cols()`. -/
  ncol : Nat
  /-- The entries, column-major. -/
  data : List Int
  /-- The storage holds exactly `nrow * ncol` entries. -/
  size_eq : data.length = nrow * ncol

/-- Entry `m(i, j)` of a matrix, when `(i, j)` is inside it. -/
def IntegerMatrix.entry (m : IntegerMatrix) (i j : Nat) : Option Int :=
  if i < m.nrow ∧ j < m.ncol then m.data[i + j * m.nrow]? else none

/-- One iteration of the loop of `check_crossinfo` on the value `cross_info[i]`;
the state is `(n_missing, n_invalid)`. -/
def check_crossinfo_body (st : Nat × Nat) (x : Int) : Nat × Nat :=
  if x = NA_INTEGER then (st.1 + 1, st.2)
  else if x < 1 then (st.1, st.2 + 1)
  else st

/-- Models `DOPK::check_crossinfo` (`any_x_chr` is unused): the returned flag and
the messages in the order they are emitted.  The counters are bounded by
`n_row`, itself an `int`, so the `unsigned int` arithmetic never wraps. -/
def check_crossinfo (cross_info : IntegerMatrix) (any_x_chr : Bool) : Bool × List Message :=
  let n_row := cross_info.nrow
  let n_col := cross_info.ncol
  if hcol : n_col = 0 then
    (false, [Message.cross_info_not_provided])
  else
    let counts := (List.finRange n_row).foldl
      (fun st i => check_crossinfo_body st
        (cross_info.data.get ⟨i.val, by
          rw [cross_info.size_eq]
          exact lt_of_lt_of_le i.isLt
            (Nat.le_mul_of_pos_right _ (Nat.pos_of_ne_zero hcol))⟩)) ((0, 0) : Nat × Nat)
    let n_missing := counts.1
    let n_invalid := counts.2
    let r1 : Bool × List Message :=
      if n_missing > 0 then (false, [Message.cross_info_missing]) else (true, [])
    if n_invalid > 0 then (false, r1.2 ++ [Message.cross_info_invalid]) else r1

/-! ## `check_is_female_vector`, `check_founder_geno_values` -/

/-- R's missing logical; a `LogicalVector` stores `int` cells. -/
def NA_LOGICAL : Int := INT_MIN

/-- Models `DOPK::check_is_female_vector`: the returned flag and the messages.
The loop visits every cell of the vector in order and counts the missing ones;
the counter is bounded by the vector length and never wraps. -/
def check_is_female_vector (is_female : List Int) (any_x_chr : Bool) : Bool × List Message :=
  let n := is_female.length
  if !any_x_chr then
    if n > 0 then (true, []) else (true, [])
  else
    if n = 0 then (false, [Message.is_female_not_provided])
    else
      let n_missing : Nat :=
        is_female.foldl (fun n_missing x => if x = NA_LOGICAL then n_missing + 1 else n_missing) 0
      if n_missing > 0 then (false, [Message.is_female_missing]) else (true, [])

/-- Element `m(i, j)` of a matrix for indices inside it: the cell at the linear
index `i + j * nrow`. -/
def IntegerMatrix.elem (m : IntegerMatrix) (i : Fin m.nrow) (j : Fin m.ncol) : Int :=
  m.data.get ⟨i.val + j.val * m.nrow, by
    rw [m.size_eq]
    calc i.val + j.val * m.nrow < m.nrow + j.val * m.nrow := Nat.add_lt_add_right i.isLt _
      _ = (j.val + 1) * m.nrow := by rw [Nat.add_mul, Nat.one_mul, Nat.add_comm]
      _ ≤ m.ncol * m.nrow := Nat.mul_le_mul_right _ j.isLt
      _ = m.nrow * m.ncol := Nat.mul_comm _ _⟩

/-- Models `DOPK::check_founder_geno_values`: the returned flag and the messages.
The nested loops return false, with one message, at the first invalid value;
`List.all` stops at the first failure in the same way. -/
def check_founder_geno_values (founder_geno : IntegerMatrix) : Bool × List Message :=
  let fg_mar := founder_geno.ncol
  let fg_f := founder_geno.nrow
  if (List.finRange fg_f).all (fun f =>
      (List.finRange fg_mar).all (fun mar =>
        let fg := founder_geno.elem f mar
        !(decide (fg ≠ 0 ∧ fg ≠ 1 ∧ fg ≠ 3)))) then
    (true, [])
  else
    (false, [Message.founder_geno_invalid])

/-! ## `nrec`, `est_rec_frac` -/

/-- An R numeric value: a double, or the missing-value sentinel `NA_REAL`
(a not-a-number). -/
inductive Numeric (α : Type) where
  /-- An ordinary double. -/
  | value (x : α)
  /-- The sentinel `NA_REAL`. -/
  | NA_REAL
  deriving DecidableEq, Repr

/-- Models `DOPK::nrec`: the body is `return NA_REAL`. -/
def nrec {α : Type} (gen_left gen_right : Int) (is_x_chr is_female : Bool)
    (cross_info : List Int) : Except Err (Numeric α) :=
  .ok Numeric.NA_REAL

/-- Models `DOPK::est_rec_frac`: `Rcpp::stop(...)` followed by `return NA_REAL`. -/
def est_rec_frac {α : Type} (gamma : List α) (is_x_chr : Bool) (cross_info : IntegerMatrix)
    (n_gen : Int) : Except Err (Numeric α) :=
  (Except.error Err.stop : Except Err Unit).bind fun _ => .ok Numeric.NA_REAL

/-! ## `geno2allele_matrix` -/

/-- An Rcpp `NumericMatrix`: dimensions and the cells, stored column by column. -/
structure NumericMatrix (α : Type) where
  /-- Value of `rows()`. -/
  nrow : Nat
  /-- Value of `cols()`. -/
  ncol : Nat
  /-- The cells, column-major. -/
  data : List α

/-- The matrix `NumericMatrix result(nrow, ncol)`, filled with zeros. -/
def NumericMatrix.zeros {α : Type} [Field α] (nrow ncol : Nat) : NumericMatrix α :=
  ⟨nrow, ncol, List.replicate (nrow * ncol) 0⟩

/-- Linear index of `m(i, j)`: Rcpp computes `i + j * nrow` and does not compare
`i` and `j` with the dimensions. -/
def NumericMatrix.offset {α : Type} (m : NumericMatrix α) (i j : Int) : Int :=
  i + j * (m.nrow : Int)

/-- Reading `m(i, j)`; outside the storage the behaviour is undefined. -/
def NumericMatrix.read {α : Type} (m : NumericMatrix α) (i j : Int) : Except Err α :=
  if 0 ≤ m.offset i j then
    match m.data[(m.offset i j).toNat]? with
    | some x => .ok x
    | none => .error (Err.subscript_out_of_bounds i j)
  else .error (Err.subscript_out_of_bounds i j)

/-- The assignment `m(i, j) = x`; outside the storage the behaviour is undefined. -/
def NumericMatrix.write {α : Type} (m : NumericMatrix α) (i j : Int) (x : α) :
    Except Err (NumericMatrix α) :=
  if 0 ≤ m.offset i j ∧ (m.offset i j).toNat < m.data.length then
    .ok { m with data := m.data.set (m.offset i j).toNat x }
  else .error (Err.subscript_out_of_bounds i j)

/-- The compound assignment `m(i, j) += x`. -/
def NumericMatrix.add_assign {α : Type} [Field α] (m : NumericMatrix α) (i j : Int) (x : α) :
    Except Err (NumericMatrix α) :=
  (m.read i j).bind fun v => m.write i j (v + x)

/-- Models `DOPK::geno2allele_matrix`.  Each `for(int trueg=0; trueg<n_geno; trueg++)`
is a fold over `0, 1, ..., n_geno - 1`; the literal `0.5` is `1 / 2`. -/
def geno2allele_matrix {α : Type} [Field α] (E : Env α) (is_x_chr : Bool) :
    Except Err (NumericMatrix α) :=
  let n_alleles : Nat := 8
  let n_geno : Nat := 64
  if is_x_chr then
    let result : NumericMatrix α := NumericMatrix.zeros (n_geno + n_alleles) n_alleles
    ((List.range n_geno).foldlM (fun (result : NumericMatrix α) (trueg : Nat) =>
        let alleles := E.mpp_decode_geno ((trueg : Int) + 1) 8 true
        (result.add_assign (trueg : Int) (alleles.1 - 1) (1 / 2)).bind fun result =>
        result.add_assign (trueg : Int) (alleles.2 - 1) (1 / 2)) result).bind fun result =>
    (List.range n_geno).foldlM (fun (result : NumericMatrix α) (trueg : Nat) =>
        result.write ((trueg : Int) + (n_geno : Int)) (trueg : Int) 1) result
  else
    let result : NumericMatrix α := NumericMatrix.zeros n_geno n_alleles
    (List.range n_geno).foldlM (fun (result : NumericMatrix α) (trueg : Nat) =>
        let alleles := E.mpp_decode_geno ((trueg : Int) + 1) 8 true
        (result.add_assign (trueg : Int) (alleles.1 - 1) (1 / 2)).bind fun result =>
        result.add_assign (trueg : Int) (alleles.2 - 1) (1 / 2)) result

/-! ### The cells of the matrix under Rcpp's unchecked indexing

`Matrix::operator()` computes the linear index and does not compare it with
the size of the storage.  A store whose index is outside the storage lands
outside the matrix, so that no cell of the matrix is altered by it.  The
definitions above stop at such an access and name it; the definitions below
carry on past it and give the cells of the matrix that the call hands back. -/

/-- Modelled from the spec: `mpp_decode_geno` (declared in `cross_util.h`, not
part of the sources at hand), by the relation of the codec section,
`code - 1 = (allele_left - 1) * 8 + (allele_right - 1)`. -/
def mpp_decode_geno_spec (true_gen _n_alleles : Int) (_phase_known : Bool) : Int × Int :=
  ((true_gen - 1) / 8 + 1, (true_gen - 1) % 8 + 1)

/-- A concrete environment: the given `log` and `NDEBUG` setting, the decoder
modelled from the spec, and `DOrec_*` functions that return the recombination
fraction they are given. -/
def sample_env {α : Type} (log : α → α) (ndebug : Bool) : Env α where
  ndebug := ndebug
  log := log
  mpp_decode_geno := mpp_decode_geno_spec
  DOrec_auto := fun r _ _ _ => r
  DOrec_femX := fun r _ _ _ => r
  DOrec_malX := fun r _ _ _ => r

/-- The value of `recprob` in the `step_*` function that `step` dispatches to. -/
def recprob {α : Type} [Field α] (E : Env α) (rec_frac : α) (is_x_chr is_female : Bool)
    (n_gen : Int) : α :=
  if is_x_chr then
    if is_female then E.DOrec_femX rec_frac n_gen precc_gen precc_alpha
    else E.DOrec_malX rec_frac n_gen precc_gen precc_alpha
  else E.DOrec_auto rec_frac n_gen precc_gen precc_alpha

/-- The transition table as the specification words it, on allele pairs
`(l1, l2)` and `(r1, r2)`: the identical ordered pair; then the three patterns
with one recombinant haplotype (`AA -> AB` with `A` in either position,
`AB -> AA or BB`, `AB -> AC or CB`); then every other case. -/
def spec_step_table {α : Type} [Field α] (log : α → α) (l r : Int × Int) (recprob : α) : α :=
  if r.1 = l.1 ∧ r.2 = l.2 then 2 * log (1 - recprob)
  else if (l.1 = l.2 ∧ r.1 ≠ r.2 ∧ (r.1 = l.1 ∨ r.2 = l.1))
      ∨ (l.1 ≠ l.2 ∧ r.1 = r.2 ∧ (r.1 = l.1 ∨ r.1 = l.2))
      ∨ (l.1 ≠ l.2 ∧ r.1 ≠ r.2 ∧ ((r.1 = l.1 ∧ r.2 ≠ l.2) ∨ (r.1 ≠ l.1 ∧ r.2 = l.2))) then
    log recprob + log (1 - recprob) - log 7
  else 2 * log recprob - log 49

/-- The codes `1, 2, ..., 64` in increasing order. -/
def codes_1_to_64 : List Int :=
  [1, 2, 3, 4, 5, 6, 7, 8, 9, 10, 11, 12, 13, 14, 15, 16,
   17, 18, 19, 20, 21, 22, 23, 24, 25, 26, 27, 28, 29, 30, 31, 32,
   33, 34, 35, 36, 37, 38, 39, 40, 41, 42, 43, 44, 45, 46, 47, 48,
   49, 50, 51, 52, 53, 54, 55, 56, 57, 58, 59, 60, 61, 62, 63, 64]

/-- The codes `65, 66, ..., 72` in increasing order. -/
def codes_65_to_72 : List Int := [65, 66, 67, 68, 69, 70, 71, 72]

/-- A breeding-history matrix with one row and two columns: generation count 1
in the first column and a missing value in the second. -/
def cross_info_two_columns : IntegerMatrix := ⟨1, 2, [1, NA_INTEGER], rfl⟩

/-- A founder-genotype matrix (one founder, one marker) holding a heterozygous call. -/
def founder_geno_het : IntegerMatrix := ⟨1, 1, [2], rfl⟩

/-- A founder-genotype matrix (one founder, one marker) holding the value 0. -/
def founder_geno_zero : IntegerMatrix := ⟨1, 1, [0], rfl⟩

/-- The per-haplotype transition term `h(x, y)` of the factorised form:
`log(1 - recprob)` when the allele is kept, `log(recprob) - log(7)` otherwise. -/
def spec_haplotype_step {α : Type} [Field α] (log : α → α) (recprob : α) (x y : Int) : α :=
  if x = y then log (1 - recprob) else log recprob - log 7

/-- Membership in `possible_gen` is membership in the numeric range. -/
theorem mem_possible_gen (gen : Int) (is_x_chr is_female : Bool) :
    gen ∈ possible_gen is_x_chr is_female ↔
      (if is_x_chr = true ∧ is_female = false then 65 ≤ gen ∧ gen ≤ 72
        else 1 ≤ gen ∧ gen ≤ 64) := by
  have h1 : (∃ a : Nat, a < 64 ∧ (a : Int) + 1 = gen) ↔ 1 ≤ gen ∧ gen ≤ 64 := by
    constructor
    · rintro ⟨i, hi, e⟩; omega
    · intro h; exact ⟨(gen - 1).toNat, by omega, by omega⟩
  have h2 : (∃ a : Nat, a < 8 ∧ (64 : Int) + (a : Int) + 1 = gen) ↔ 65 ≤ gen ∧ gen ≤ 72 := by
    constructor
    · rintro ⟨i, hi, e⟩; omega
    · intro h; exact ⟨(gen - 65).toNat, by omega, by omega⟩
  cases is_x_chr <;> cases is_female <;>
    simpa [possible_gen, List.mem_map, List.mem_range] using by assumption

/-- A member of `possible_gen` passes `check_geno` as a true genotype. -/
theorem check_geno_of_mem (gen : Int) (is_x_chr is_female : Bool)
    (h : gen ∈ possible_gen is_x_chr is_female) :
    check_geno gen false is_x_chr is_female = true := by
  rw [mem_possible_gen] at h
  revert h
  cases is_x_chr <;> cases is_female <;> simp [check_geno]

/-- C8: `possible_gen` is the increasing sequence 1..64 for an autosome or a
female, and 65..72 for a male X; it has 64 (resp. 8) entries and no entry
occurs twice. -/
theorem C8_possible_gen_sequence (is_x_chr is_female : Bool) :
    possible_gen is_x_chr is_female =
        (if is_x_chr = false ∨ is_female = true then codes_1_to_64 else codes_65_to_72)
      ∧ (possible_gen is_x_chr is_female).length =
        (if is_x_chr = false ∨ is_female = true then 64 else 8)
      ∧ (possible_gen is_x_chr is_female).Nodup
      ∧ (possible_gen is_x_chr is_female).Sorted (fun a b => a < b) := by
  cases is_x_chr <;> cases is_female <;> decide

/-- C9: `check_geno` accepts an observed value exactly when it is one of the six
call codes 0 (missing), 1 (A), 2 (H), 3 (B), 4 (notB), 5 (notA), whatever the
chromosome and sex; it accepts a true genotype exactly when it is a member of
`possible_gen`, that is 1..64 for an autosome or female X and 65..72 for a male X. -/
theorem C9_check_geno_iff (gen : Int) (is_observed_value is_x_chr is_female : Bool) :
    (A = 1 ∧ H = 2 ∧ B = 3 ∧ notB = 4 ∧ notA = 5)
    ∧ (check_geno gen is_observed_value is_x_chr is_female = true ↔
        (if is_observed_value = true then
          gen = 0 ∨ gen = 1 ∨ gen = 2 ∨ gen = 3 ∨ gen = 4 ∨ gen = 5
        else gen ∈ possible_gen is_x_chr is_female))
    ∧ (gen ∈ possible_gen is_x_chr is_female ↔
        (if is_x_chr = false ∨ is_female = true then 1 ≤ gen ∧ gen ≤ 64
          else 65 ≤ gen ∧ gen ≤ 72)) := by
  refine ⟨by decide, ?_, ?_⟩
  · rw [mem_possible_gen]
    cases is_observed_value <;> cases is_x_chr <;> cases is_female <;>
      simp [check_geno, A, H, B, notA, notB] <;> omega
  · rw [mem_possible_gen]
    cases is_x_chr <;> cases is_female <;> simp

/-- The debug-build check of `init`, `emit` and `step` passes on a valid code. -/
theorem check_passes {α : Type} (E : Env α) (gen : Int) (is_x_chr is_female : Bool)
    (h : E.ndebug = false → check_geno gen false is_x_chr is_female = true) :
    (!E.ndebug && !check_geno gen false is_x_chr is_female) = false := by
  cases hn : E.ndebug
  · simp [h hn]
  · simp

/-- C7: with a missing observed call (`obs_gen = 0`) `emit` returns exactly 0,
for every true code valid for the chromosome type and sex (any code at all in
a release build), every founder-genotype vector (even one too short to be
read), every error probability and every chromosome type and sex. -/
theorem C7_emit_missing_is_zero {α : Type} [Field α] (E : Env α) (true_gen : Int)
    (error_prob : α) (founder_geno : List Int) (is_x_chr is_female : Bool)
    (hvalid : E.ndebug = false → check_geno true_gen false is_x_chr is_female = true) :
    emit E 0 true_gen error_prob founder_geno is_x_chr is_female = .ok 0 := by
  simp [emit, check_passes E true_gen is_x_chr is_female hvalid]

/-- Witness for C7: debug build, autosome, code 1, an empty founder vector. -/
theorem C7_emit_missing_is_zero_witness :
    check_geno 1 false false false = true
    ∧ emit (sample_env (fun x : ℚ => x) false) 0 1 (1 / 100) [] false false = .ok 0 :=
  ⟨by decide, C7_emit_missing_is_zero (sample_env (fun x : ℚ => x) false) 1 (1 / 100) []
    false false (fun _ => by decide)⟩

/-- C5: for a male X (true code in 65..72, so the check passes) `emit` reads the
single founder genotype `founder_geno[true_gen - 64 - 1]`.  If it is `A`, the
observed calls `A` and `notB` give `log(1-e)` and `B` and `notA` give `log(e)`;
if it is `B`, the calls `B` and `notA` give `log(1-e)` and `A` and `notB` give
`log(e)`.  With founder allele `B`, observed `notA` and `e = 0.02` the result
is `log(0.98)`. -/
theorem C5_emit_male_X (E : Env ℝ) (true_gen : Int) (error_prob : ℝ)
    (founder_geno : List Int) (founder_allele : Int)
    (hrange : 65 ≤ true_gen ∧ true_gen ≤ 72)
    (hfa : vec_get founder_geno (true_gen - 64 - 1) = .ok founder_allele) :
    (founder_allele = A →
      emit E A true_gen error_prob founder_geno true false = .ok (E.log (1 - error_prob))
      ∧ emit E notB true_gen error_prob founder_geno true false = .ok (E.log (1 - error_prob))
      ∧ emit E B true_gen error_prob founder_geno true false = .ok (E.log error_prob)
      ∧ emit E notA true_gen error_prob founder_geno true false = .ok (E.log error_prob))
    ∧ (founder_allele = B →
      emit E B true_gen error_prob founder_geno true false = .ok (E.log (1 - error_prob))
      ∧ emit E notA true_gen error_prob founder_geno true false = .ok (E.log (1 - error_prob))
      ∧ emit E A true_gen error_prob founder_geno true false = .ok (E.log error_prob)
      ∧ emit E notB true_gen error_prob founder_geno true false = .ok (E.log error_prob))
    ∧ (founder_allele = B → error_prob = 0.02 →
      emit E notA true_gen error_prob founder_geno true false = .ok (E.log 0.98)) := by
  have hc : (!E.ndebug && !check_geno true_gen false true false) = false :=
    check_passes E true_gen true false (fun _ => by simp [check_geno]; omega)
  have hA : ∀ obs : Int, obs ≠ 0 → founder_allele = A →
      emit E obs true_gen error_prob founder_geno true false =
        .ok ((emit_malX_caseA E obs error_prob <|> emit_malX_caseB E obs error_prob).getD 0) := by
    intro obs ho ha
    simp [emit, hc, ho, hfa, ha, Except.bind]
  have hB : ∀ obs : Int, obs ≠ 0 → founder_allele = B →
      emit E obs true_gen error_prob founder_geno true false =
        .ok ((emit_malX_caseB E obs error_prob).getD 0) := by
    intro obs ho hb
    simp [emit, hc, ho, hfa, hb, Except.bind, A, B]
  refine ⟨fun ha => ⟨?_, ?_, ?_, ?_⟩, fun hb => ⟨?_, ?_, ?_, ?_⟩, fun hb he => ?_⟩
  · rw [hA A (by decide) ha]; simp [emit_malX_caseA]
  · rw [hA notB (by decide) ha]; simp [emit_malX_caseA]
  · rw [hA B (by decide) ha]; simp [emit_malX_caseA, A, B, notA, notB]
  · rw [hA notA (by decide) ha]; simp [emit_malX_caseA, A, B, notA, notB]
  · rw [hB B (by decide) hb]; simp [emit_malX_caseB]
  · rw [hB notA (by decide) hb]; simp [emit_malX_caseB]
  · rw [hB A (by decide) hb]; simp [emit_malX_caseB, A, B, notA, notB]
  · rw [hB notB (by decide) hb]; simp [emit_malX_caseB, A, B, notA, notB]
  · rw [hB notA (by decide) hb, he]; simp [emit_malX_caseB]; norm_num

/-- Witness for C5: debug build, male X code 66, whose founder (the second) is `B`. -/
theorem C5_emit_male_X_witness :
    emit (sample_env Real.log false) notA 66 0.02 [1, 3, 1, 1, 1, 1, 1, 1] true false
      = .ok (Real.log 0.98) :=
  (C5_emit_male_X (sample_env Real.log false) 66 0.02 [1, 3, 1, 1, 1, 1, 1, 1] 3
    ⟨by decide, by decide⟩ rfl).2.2 rfl rfl

/-- C4: autosome or female X, true code decoding to founders `(i, j)` whose
genotypes `f1`, `f2` are both homozygous (1 or 3).  `emit` returns the entry of
the genotyping-error table for `consensus = (f1 + f2) / 2` and the observed
call; the rows list the calls `A`, `H`, `B`, `notA`, `notB` in this order.  With
`e = 0.01` and founders `(1, 1)` both `A`, observed `A` gives `log(0.99)` and
observed `H` gives `log(0.005)`. -/
theorem C4_emit_both_known (E : Env ℝ) (true_gen : Int) (error_prob : ℝ)
    (founder_geno : List Int) (is_x_chr is_female : Bool) (i j f1 f2 : Int)
    (hchr : is_x_chr = false ∨ is_female = true)
    (hvalid : E.ndebug = false → check_geno true_gen false is_x_chr is_female = true)
    (hdec : E.mpp_decode_geno true_gen 8 true = (i, j))
    (hf1 : vec_get founder_geno (i - 1) = .ok f1)
    (hf2 : vec_get founder_geno (j - 1) = .ok f2)
    (hk1 : f1 = 1 ∨ f1 = 3) (hk2 : f2 = 1 ∨ f2 = 3) :
    ((f1 + f2) / 2 = A →
      emit E A true_gen error_prob founder_geno is_x_chr is_female = .ok (E.log (1 - error_prob))
      ∧ emit E H true_gen error_prob founder_geno is_x_chr is_female = .ok (E.log (error_prob / 2))
      ∧ emit E B true_gen error_prob founder_geno is_x_chr is_female = .ok (E.log (error_prob / 2))
      ∧ emit E notA true_gen error_prob founder_geno is_x_chr is_female = .ok (E.log (error_prob))
      ∧ emit E notB true_gen error_prob founder_geno is_x_chr is_female = .ok (E.log (1 - error_prob / 2)))
    ∧ ((f1 + f2) / 2 = H →
      emit E A true_gen error_prob founder_geno is_x_chr is_female = .ok (E.log (error_prob / 2))
      ∧ emit E H true_gen error_prob founder_geno is_x_chr is_female = .ok (E.log (1 - error_prob))
      ∧ emit E B true_gen error_prob founder_geno is_x_chr is_female = .ok (E.log (error_prob / 2))
      ∧ emit E notA true_gen error_prob founder_geno is_x_chr is_female = .ok (E.log (1 - error_prob / 2))
      ∧ emit E notB true_gen error_prob founder_geno is_x_chr is_female = .ok (E.log (1 - error_prob / 2)))
    ∧ ((f1 + f2) / 2 = B →
      emit E A true_gen error_prob founder_geno is_x_chr is_female = .ok (E.log (error_prob / 2))
      ∧ emit E H true_gen error_prob founder_geno is_x_chr is_female = .ok (E.log (error_prob / 2))
      ∧ emit E B true_gen error_prob founder_geno is_x_chr is_female = .ok (E.log (1 - error_prob))
      ∧ emit E notA true_gen error_prob founder_geno is_x_chr is_female = .ok (E.log (1 - error_prob / 2))
      ∧ emit E notB true_gen error_prob founder_geno is_x_chr is_female = .ok (E.log (error_prob)))
    ∧ (error_prob = 0.01 → i = 1 → j = 1 → f1 = A →
      emit E A true_gen error_prob founder_geno is_x_chr is_female = .ok (E.log 0.99)
      ∧ emit E H true_gen error_prob founder_geno is_x_chr is_female = .ok (E.log 0.005)) := by
  have hc := check_passes E true_gen is_x_chr is_female hvalid
  have hx : (!is_x_chr || is_female) = true := by
    rcases hchr with h | h <;> simp [h]
  have key : ∀ obs : Int, obs ≠ 0 →
      emit E obs true_gen error_prob founder_geno is_x_chr is_female =
        if (f1 + f2) / 2 = A then
          .ok ((emit_both_caseA E obs error_prob <|> emit_both_caseH E obs error_prob
                <|> emit_both_caseB E obs error_prob).getD 0)
        else if (f1 + f2) / 2 = H then
          .ok ((emit_both_caseH E obs error_prob
                <|> emit_both_caseB E obs error_prob).getD 0)
        else .ok ((emit_both_caseB E obs error_prob).getD 0) := by
    intro obs ho
    have t2 : Int.tdiv 2 2 = 1 := by decide
    have t4 : Int.tdiv 4 2 = 2 := by decide
    have t6 : Int.tdiv 6 2 = 3 := by decide
    rcases hk1 with rfl | rfl <;> rcases hk2 with rfl | rfl <;>
      simp [emit, hc, hx, ho, hdec, hf1, hf2, Except.bind, add_int, INT_MIN, INT_MAX, A, H, B,
        t2, t4, t6]
  have hA := key A (by decide)
  have hH := key H (by decide)
  have hB := key B (by decide)
  have hnA := key notA (by decide)
  have hnB := key notB (by decide)
  refine ⟨fun h => ?_, fun h => ?_, fun h => ?_, fun he hi hj ha => ?_⟩
  · rw [hA, hH, hB, hnA, hnB]
    simp [h, emit_both_caseA, A, H, B, notA, notB]
  · have h1 : ¬ (f1 + f2) / 2 = A := by rw [h]; decide
    rw [hA, hH, hB, hnA, hnB]
    simp [h, h1, emit_both_caseH, A, H, B, notA, notB]
  · have h1 : ¬ (f1 + f2) / 2 = A := by rw [h]; decide
    have h2 : ¬ (f1 + f2) / 2 = H := by rw [h]; decide
    rw [hA, hH, hB, hnA, hnB]
    simp only [if_neg h1, if_neg h2]
    simp [emit_both_caseB, A, H, B, notA, notB]
  · subst hi hj
    have hf : f2 = f1 := by
      have := hf1.symm.trans hf2
      simpa using this.symm
    subst hf
    have h : (f2 + f2) / 2 = A := by rw [ha]; decide
    rw [hA, hH]
    simp [h, emit_both_caseA, A, H, he]
    norm_num

/-- Witness for C4: debug build, autosome, code 1, which the decoder modelled
from the spec maps to founders `(1, 1)`, both `A`. -/
theorem C4_emit_both_known_witness :
    emit (sample_env Real.log false) A 1 0.01 [1, 1, 3, 3, 1, 1, 3, 3] false false
        = .ok (Real.log 0.99)
    ∧ emit (sample_env Real.log false) H 1 0.01 [1, 1, 3, 3, 1, 1, 3, 3] false false
        = .ok (Real.log 0.005) :=
  (C4_emit_both_known (sample_env Real.log false) 1 0.01 [1, 1, 3, 3, 1, 1, 3, 3] false false
    1 1 1 1 (Or.inl rfl) (fun _ => by decide) rfl rfl rfl (Or.inl rfl) (Or.inl rfl)).2.2.2
    rfl rfl rfl rfl

/-- C6: autosome or female X, true code decoding to founders `(i, j)` with
genotypes `f1`, `f2`, a founder call 0 (missing) or 2 (heterozygous) counting
as unknown.  If both are unknown `emit` returns 0 for every observed call.
If exactly one is unknown and the other is the homozygous call `k`, the result
is a function of `k` and the observed call alone: 0 for an observed `H`,
`log(1-e)` for the homozygous call equal to `k` or its synonym (`notB` for `A`,
`notA` for `B`), and `log(e)` for the other homozygous call or its synonym. -/
theorem C6_emit_unknown_founders {α : Type} [Field α] (E : Env α) (true_gen : Int)
    (error_prob : α) (founder_geno : List Int) (is_x_chr is_female : Bool) (i j f1 f2 : Int)
    (hchr : is_x_chr = false ∨ is_female = true)
    (hvalid : E.ndebug = false → check_geno true_gen false is_x_chr is_female = true)
    (hdec : E.mpp_decode_geno true_gen 8 true = (i, j))
    (hf1 : vec_get founder_geno (i - 1) = .ok f1)
    (hf2 : vec_get founder_geno (j - 1) = .ok f2) :
    ((f1 = 0 ∨ f1 = 2) ∧ (f2 = 0 ∨ f2 = 2) →
      ∀ obs_gen : Int,
        emit E obs_gen true_gen error_prob founder_geno is_x_chr is_female = .ok 0)
    ∧ (∀ k : Int, (k = A ∨ k = B) →
      ((f1 = 0 ∨ f1 = 2) ∧ f2 = k) ∨ (f1 = k ∧ (f2 = 0 ∨ f2 = 2)) →
      ∀ obs_gen : Int,
        obs_gen = A ∨ obs_gen = H ∨ obs_gen = B ∨ obs_gen = notA ∨ obs_gen = notB →
        emit E obs_gen true_gen error_prob founder_geno is_x_chr is_female =
          .ok (if obs_gen = H then 0
            else if (k = A ∧ (obs_gen = A ∨ obs_gen = notB))
                ∨ (k = B ∧ (obs_gen = B ∨ obs_gen = notA)) then E.log (1 - error_prob)
            else E.log error_prob)) := by
  have hc := check_passes E true_gen is_x_chr is_female hvalid
  have hx : (!is_x_chr || is_female) = true := by
    rcases hchr with h | h <;> simp [h]
  refine ⟨?_, ?_⟩
  · rintro ⟨h1, h2⟩ obs_gen
    by_cases ho : obs_gen = 0
    · simp [emit, hc, ho]
    · rcases h1 with rfl | rfl <;> rcases h2 with rfl | rfl <;>
        simp [emit, hc, hx, ho, hdec, hf1, hf2, Except.bind]
  · intro k hk hone obs_gen hobs
    have ho : obs_gen ≠ 0 := by
      rcases hobs with rfl | rfl | rfl | rfl | rfl <;> decide
    rcases hk with rfl | rfl <;>
      rcases hone with ⟨h1 | h1, h2⟩ | ⟨h1, h2 | h2⟩ <;> subst h1 <;> subst h2 <;>
      rcases hobs with rfl | rfl | rfl | rfl | rfl <;>
      simp [emit, hc, hx, hdec, hf1, hf2, Except.bind, emit_one_caseA, emit_one_caseB,
        A, H, B, notA, notB]

/-- Witness for C6: debug build, autosome, code 2, decoded to founders `(1, 2)`
by the decoder modelled from the spec; founder 1 is heterozygous and founder 2
is `B`, and the observed call is `notA`. -/
theorem C6_emit_unknown_founders_witness :
    emit (sample_env (fun x : ℚ => x) false) notA 2 (1 / 100) [2, 3, 1, 1, 1, 1, 1, 1]
      false false = .ok (1 - 1 / 100) :=
  (C6_emit_unknown_founders (sample_env (fun x : ℚ => x) false) 2 (1 / 100)
    [2, 3, 1, 1, 1, 1, 1, 1] false false 1 2 2 3 (Or.inl rfl) (fun _ => by decide)
    rfl rfl rfl).2 3 (Or.inr rfl) (Or.inl ⟨Or.inr rfl, rfl⟩) notA
    (Or.inr (Or.inr (Or.inr (Or.inl rfl))))

/-- After the loop of `check_crossinfo` a counter is positive exactly when one
was positive before or some visited entry is missing or below 1. -/
theorem check_crossinfo_loop_pos {ι : Type} (g : ι → Int) (l : List ι) (st : Nat × Nat) :
    (0 < (l.foldl (fun st i => check_crossinfo_body st (g i)) st).1
        ∨ 0 < (l.foldl (fun st i => check_crossinfo_body st (g i)) st).2)
      ↔ (0 < st.1 ∨ 0 < st.2) ∨ ∃ i ∈ l, g i = NA_INTEGER ∨ g i < 1 := by
  induction l generalizing st with
  | nil => simp
  | cons a t ih =>
    rw [List.foldl_cons, ih]
    by_cases h1 : g a = NA_INTEGER
    · simp [check_crossinfo_body, h1]
    · by_cases h2 : g a < 1
      · simp [check_crossinfo_body, h1, h2]
      · simp [check_crossinfo_body, h1, h2]

/-- C10 (amended): `check_crossinfo` returns false exactly when the matrix has
no columns or some entry of its first column is missing or less than 1; the
other columns are not examined.  In particular a matrix with a missing entry
in its first column, with an X-linked locus present, yields false. -/
theorem C10_check_crossinfo_first_column (cross_info : IntegerMatrix) (any_x_chr : Bool) :
    ((check_crossinfo cross_info any_x_chr).1 = false ↔
      cross_info.ncol = 0
        ∨ ∃ i v, cross_info.entry i 0 = some v ∧ (v = NA_INTEGER ∨ v < 1))
    ∧ ((∃ i, cross_info.entry i 0 = some NA_INTEGER) →
      (check_crossinfo cross_info true).1 = false) := by
  have main : ∀ x : Bool, ((check_crossinfo cross_info x).1 = false ↔
      cross_info.ncol = 0
        ∨ ∃ i v, cross_info.entry i 0 = some v ∧ (v = NA_INTEGER ∨ v < 1)) := by
    intro x
    by_cases hcol : cross_info.ncol = 0
    · simp [check_crossinfo, hcol]
    · have hlt : ∀ i : Fin cross_info.nrow, i.val < cross_info.data.length := by
        intro i
        rw [cross_info.size_eq]
        exact lt_of_lt_of_le i.isLt (Nat.le_mul_of_pos_right _ (Nat.pos_of_ne_zero hcol))
      have hloop := check_crossinfo_loop_pos
        (fun i : Fin cross_info.nrow => cross_info.data.get ⟨i.val, hlt i⟩)
        (List.finRange cross_info.nrow) (0, 0)
      have hentry : (∃ i ∈ List.finRange cross_info.nrow,
            cross_info.data.get ⟨i.val, hlt i⟩ = NA_INTEGER
              ∨ cross_info.data.get ⟨i.val, hlt i⟩ < 1)
          ↔ ∃ i v, cross_info.entry i 0 = some v ∧ (v = NA_INTEGER ∨ v < 1) := by
        constructor
        · rintro ⟨i, -, hi⟩
          refine ⟨i.val, cross_info.data.get ⟨i.val, hlt i⟩, ?_, hi⟩
          simp [IntegerMatrix.entry, i.isLt, Nat.pos_of_ne_zero hcol,
            List.getElem?_eq_getElem (hlt i)]
        · rintro ⟨i, v, hv, hbad⟩
          simp only [IntegerMatrix.entry] at hv
          split_ifs at hv with hi
          refine ⟨⟨i, hi.1⟩, List.mem_finRange _, ?_⟩
          have hget : cross_info.data.get ⟨i, hlt ⟨i, hi.1⟩⟩ = v := by
            simp only [Nat.zero_mul, Nat.add_zero] at hv
            rw [List.getElem?_eq_getElem (hlt ⟨i, hi.1⟩)] at hv
            simpa using hv
          show cross_info.data.get ⟨i, hlt ⟨i, hi.1⟩⟩ = NA_INTEGER
            ∨ cross_info.data.get ⟨i, hlt ⟨i, hi.1⟩⟩ < 1
          rw [hget]
          exact hbad
      simp only [lt_self_iff_false, or_self, false_or] at hloop
      rw [← hentry, ← hloop]
      simp only [check_crossinfo, hcol, dite_false, false_or]
      generalize (List.finRange cross_info.nrow).foldl _ _ = counts
      by_cases hm : 0 < counts.1 <;> by_cases hi : 0 < counts.2 <;> simp [hm, hi]
  refine ⟨main any_x_chr, ?_⟩
  rintro ⟨i, hi⟩
  exact (main true).2 (Or.inr ⟨i, NA_INTEGER, hi, Or.inl rfl⟩)

/-- Witness for C10 (amended): a one-column matrix whose second entry is missing. -/
theorem C10_check_crossinfo_first_column_witness :
    (check_crossinfo ⟨2, 1, [3, NA_INTEGER], rfl⟩ true).1 = false :=
  (C10_check_crossinfo_first_column ⟨2, 1, [3, NA_INTEGER], rfl⟩ true).2 ⟨1, by decide⟩

/-- C10 as stated fails: `cross_info_two_columns` has a column, and its entry in
row 0, column 1 is missing (hence also less than 1), yet `check_crossinfo`,
called with an X-linked locus present, returns true and emits no message. -/
theorem C10_counterexample_second_column :
    cross_info_two_columns.ncol ≠ 0
    ∧ cross_info_two_columns.entry 0 1 = some NA_INTEGER
    ∧ NA_INTEGER < 1
    ∧ check_crossinfo cross_info_two_columns true = (true, []) := by
  decide

/-- The debug-build length check of the `step_*` functions passes on tables of
equal length. -/
theorem length_check_passes {α : Type} (E : Env α) (pg : List Int) (pa : List α)
    (h : E.ndebug = false → pg.length = pa.length) :
    (!E.ndebug && decide (pg.length ≠ pa.length)) = false := by
  cases hn : E.ndebug
  · simp [h hn]
  · simp

/-- The tables that `step` passes on have the same length. -/
theorem precc_length {α : Type} [Field α] :
    precc_gen.length = (precc_alpha : List α).length := rfl

/-- The `if`/`else` tree of `step_auto` and `step_femX` computes the
specification table. -/
theorem step_tree_eq_table {α : Type} [Field α] (log : α → α) (left1 left2 right1 right2 : Int) (recprob : α) :
    (if left1 = left2 then
      if right1 = right2 then
        if left1 = right1 then (Except.ok (2 * log (1 - recprob)) : Except Err α)
        else .ok (2 * log recprob - log 49)
      else
        if left1 = right1 ∨ left1 = right2 then
          .ok (log recprob + log (1 - recprob) - log 7)
        else .ok (2 * log recprob - log 49)
    else
      if right1 = right2 then
        if left1 = right1 ∨ left2 = right1 then
          .ok (log recprob + log (1 - recprob) - log 7)
        else .ok (2 * log recprob - log 49)
      else
        if left1 = right1 ∧ left2 = right2 then .ok (2 * log (1 - recprob))
        else if left1 = right2 ∧ left2 = right1 then .ok (2 * log recprob - log 49)
        else if left1 = right1 ∨ left2 = right2 then
          .ok (log recprob + log (1 - recprob) - log 7)
        else if left2 = right1 ∨ left2 = right2 then .ok (2 * log recprob - log 49)
        else .ok (2 * log recprob - log 49)) =
      .ok (spec_step_table log (left1, left2) (right1, right2) recprob) := by
  unfold spec_step_table
  by_cases h1 : left1 = left2
  · subst h1
    by_cases h2 : right1 = right2
    · subst h2
      by_cases h3 : left1 = right1
      · subst h3; simp
      · have h3b : ¬ right1 = left1 := fun h => h3 h.symm
        simp [h3, h3b]
    · by_cases h3 : left1 = right1
      · subst h3
        have : ¬ right2 = left1 := fun h => h2 h.symm
        simp [h2, this]
      · have h3b : ¬ right1 = left1 := fun h => h3 h.symm
        by_cases h4 : left1 = right2
        · subst h4; simp [h2, h3]
        · have h4b : ¬ right2 = left1 := fun h => h4 h.symm
          simp [h2, h3, h4, h3b, h4b]
  · by_cases h2 : right1 = right2
    · subst h2
      by_cases h3 : left1 = right1
      · subst h3
        have : ¬ left2 = left1 := fun h => h1 h.symm
        simp [h1, this]
      · have h3b : ¬ right1 = left1 := fun h => h3 h.symm
        by_cases h4 : left2 = right1
        · subst h4; simp [h1, h3, h3b]
        · have h4b : ¬ right1 = left2 := fun h => h4 h.symm
          simp [h1, h3, h4, h3b, h4b]
    · by_cases h3 : left1 = right1 <;> by_cases h4 : left2 = right2 <;>
        by_cases h5 : left1 = right2 <;> by_cases h6 : left2 = right1 <;>
        simp [h1, h2, h3, h4, h5, h6, eq_comm]

/-- The code of `step_auto` computes the specification table. -/
theorem step_auto_eq_table {α : Type} [Field α] (E : Env α) (left right : Int) (r : α)
    (s : Int) (pg : List Int) (pa : List α)
    (hlen : E.ndebug = false → pg.length = pa.length) :
    step_auto E left right r s pg pa =
      .ok (spec_step_table E.log (E.mpp_decode_geno left 8 true)
        (E.mpp_decode_geno right 8 true) (E.DOrec_auto r s pg pa)) := by
  simp only [step_auto, length_check_passes E pg pa hlen, Bool.false_eq_true, if_false]
  exact step_tree_eq_table E.log _ _ _ _ _

/-- The code of `step_femX` computes the specification table. -/
theorem step_femX_eq_table {α : Type} [Field α] (E : Env α) (left right : Int) (r : α)
    (s : Int) (pg : List Int) (pa : List α)
    (hlen : E.ndebug = false → pg.length = pa.length) :
    step_femX E left right r s pg pa =
      .ok (spec_step_table E.log (E.mpp_decode_geno left 8 true)
        (E.mpp_decode_geno right 8 true) (E.DOrec_femX r s pg pa)) := by
  simp only [step_femX, length_check_passes E pg pa hlen, Bool.false_eq_true, if_false]
  exact step_tree_eq_table E.log _ _ _ _ _

/-- With valid codes and a readable `cross_info[0]`, `step` is the `step_*`
function of the chromosome type and sex, called on the static tables. -/
theorem step_dispatch {α : Type} [Field α] (E : Env α) (gen_left gen_right : Int)
    (rec_frac : α) (is_x_chr is_female : Bool) (cross_info : List Int) (n_gen : Int)
    (hl : E.ndebug = false → check_geno gen_left false is_x_chr is_female = true)
    (hr : E.ndebug = false → check_geno gen_right false is_x_chr is_female = true)
    (hn : vec_get cross_info 0 = .ok n_gen) :
    step E gen_left gen_right rec_frac is_x_chr is_female cross_info =
      (if is_x_chr = true ∧ is_female = false then
        step_malX E gen_left gen_right rec_frac n_gen precc_gen precc_alpha
      else if is_x_chr = true ∧ is_female = true then
        step_femX E gen_left gen_right rec_frac n_gen precc_gen precc_alpha
      else step_auto E gen_left gen_right rec_frac n_gen precc_gen precc_alpha) := by
  have hc : (!E.ndebug && (!check_geno gen_left false is_x_chr is_female ||
      !check_geno gen_right false is_x_chr is_female)) = false := by
    cases hd : E.ndebug
    · simp [hl hd, hr hd]
    · simp
  simp only [step, hc, hn, Except.bind]
  cases is_x_chr <;> cases is_female <;> simp

/-- C2: for an autosome and for a female X, `step` on codes decoding to the
allele pairs `(l1, l2)` and `(r1, r2)` returns the value of the specification
case table (`spec_step_table`) at `recprob`, which is `DOrec_auto` resp.
`DOrec_femX` of `rec_frac`, `cross_info[0]` and the static tables.  The same
holds of `step_auto` and `step_femX` called directly: they compute the
identical table and differ only in the function giving `recprob`. -/
theorem C2_step_follows_case_table {α : Type} [Field α] (E : Env α)
    (gen_left gen_right : Int) (rec_frac : α) (is_x_chr is_female : Bool)
    (cross_info : List Int) (n_gen : Int)
    (hchr : is_x_chr = false ∨ is_female = true)
    (hl : E.ndebug = false → check_geno gen_left false is_x_chr is_female = true)
    (hr : E.ndebug = false → check_geno gen_right false is_x_chr is_female = true)
    (hn : vec_get cross_info 0 = .ok n_gen) :
    step E gen_left gen_right rec_frac is_x_chr is_female cross_info =
        .ok (spec_step_table E.log (E.mpp_decode_geno gen_left 8 true)
          (E.mpp_decode_geno gen_right 8 true)
          (if is_x_chr = true then E.DOrec_femX rec_frac n_gen precc_gen precc_alpha
            else E.DOrec_auto rec_frac n_gen precc_gen precc_alpha))
    ∧ ∀ (r : α) (s : Int) (pg : List Int) (pa : List α),
      (E.ndebug = false → pg.length = pa.length) →
      step_auto E gen_left gen_right r s pg pa =
          .ok (spec_step_table E.log (E.mpp_decode_geno gen_left 8 true)
            (E.mpp_decode_geno gen_right 8 true) (E.DOrec_auto r s pg pa))
        ∧ step_femX E gen_left gen_right r s pg pa =
          .ok (spec_step_table E.log (E.mpp_decode_geno gen_left 8 true)
            (E.mpp_decode_geno gen_right 8 true) (E.DOrec_femX r s pg pa)) := by
  refine ⟨?_, fun r s pg pa hlen =>
    ⟨step_auto_eq_table E _ _ r s pg pa hlen, step_femX_eq_table E _ _ r s pg pa hlen⟩⟩
  rw [step_dispatch E gen_left gen_right rec_frac is_x_chr is_female cross_info n_gen hl hr hn]
  rcases hchr with h | h
  · subst h
    simp [step_auto_eq_table E _ _ rec_frac n_gen precc_gen precc_alpha (fun _ => precc_length)]
  · subst h
    cases is_x_chr
    · simp [step_auto_eq_table E _ _ rec_frac n_gen precc_gen precc_alpha
        (fun _ => precc_length)]
    · simp [step_femX_eq_table E _ _ rec_frac n_gen precc_gen precc_alpha
        (fun _ => precc_length)]

/-- Witness for C2: debug build, female X, codes 2 and 10, which the decoder
modelled from the spec maps to `(1, 2)` and `(2, 2)` (the row `AB -> BB`). -/
theorem C2_step_follows_case_table_witness :
    step (sample_env (fun x : ℚ => x) false) 2 10 (1 / 4) true true [5] = .ok (1 / 4 + 3 / 4 - 7) :=
  ((C2_step_follows_case_table (sample_env (fun x : ℚ => x) false) 2 10 (1 / 4) true true [5] 5
    (Or.inr rfl) (fun _ => by decide) (fun _ => by decide) rfl).1).trans (by
      simp [spec_step_table, sample_env, mpp_decode_geno_spec]; norm_num)

/-- C3: for a male X and codes in 65..72, `step` returns `log(1 - recprob)` when
the codes are equal and `log(recprob) - log(7)` otherwise, `recprob` being
`DOrec_malX` of `rec_frac`, `cross_info[0]` and the static tables.  On valid
codes `step` runs `step_malX` when `is_x_chr` holds and `is_female` does not,
`step_femX` when both hold, and `step_auto` when `is_x_chr` does not hold,
whatever `is_female` is. -/
theorem C3_step_male_X_and_dispatch {α : Type} [Field α] (E : Env α)
    (gen_left gen_right : Int) (rec_frac : α) (is_x_chr is_female : Bool)
    (cross_info : List Int) (n_gen : Int)
    (hl : gen_left ∈ possible_gen is_x_chr is_female)
    (hr : gen_right ∈ possible_gen is_x_chr is_female)
    (hn : vec_get cross_info 0 = .ok n_gen) :
    (is_x_chr = true ∧ is_female = false →
      (65 ≤ gen_left ∧ gen_left ≤ 72) ∧ (65 ≤ gen_right ∧ gen_right ≤ 72)
      ∧ step E gen_left gen_right rec_frac is_x_chr is_female cross_info =
        .ok (if gen_left = gen_right then
            E.log (1 - E.DOrec_malX rec_frac n_gen precc_gen precc_alpha)
          else E.log (E.DOrec_malX rec_frac n_gen precc_gen precc_alpha) - E.log 7))
    ∧ step E gen_left gen_right rec_frac is_x_chr is_female cross_info =
      (if is_x_chr = true ∧ is_female = false then
        step_malX E gen_left gen_right rec_frac n_gen precc_gen precc_alpha
      else if is_x_chr = true ∧ is_female = true then
        step_femX E gen_left gen_right rec_frac n_gen precc_gen precc_alpha
      else step_auto E gen_left gen_right rec_frac n_gen precc_gen precc_alpha) := by
  have hd := step_dispatch E gen_left gen_right rec_frac is_x_chr is_female cross_info n_gen
    (fun _ => check_geno_of_mem gen_left is_x_chr is_female hl)
    (fun _ => check_geno_of_mem gen_right is_x_chr is_female hr) hn
  refine ⟨?_, hd⟩
  rintro ⟨hx, hf⟩
  subst hx hf
  have hl3 := (mem_possible_gen gen_left true false).1 hl
  have hr3 := (mem_possible_gen gen_right true false).1 hr
  simp only [and_self, if_true] at hl3 hr3
  refine ⟨hl3, hr3, ?_⟩
  rw [hd]
  simp only [and_self, if_true, step_malX,
    length_check_passes E precc_gen precc_alpha (fun _ => precc_length),
    Bool.false_eq_true, if_false]
  split_ifs <;> rfl

/-- Witness for C3: debug build, male X, codes 65 and 67. -/
theorem C3_step_male_X_and_dispatch_witness :
    step (sample_env (fun x : ℚ => x) false) 65 67 (1 / 4) true false [5] = .ok (1 / 4 - 7) :=
  ((C3_step_male_X_and_dispatch (sample_env (fun x : ℚ => x) false) 65 67 (1 / 4) true false
    [5] 5 (by decide) (by decide) rfl).1 ⟨rfl, rfl⟩).2.2


/-- Running a fallible function over a list on which it always succeeds. -/
theorem mapM_ok_of_forall {β γ : Type} (f : β → Except Err γ) (g : β → γ) (l : List β)
    (h : ∀ x ∈ l, f x = .ok (g x)) : l.mapM f = .ok (l.map g) := by
  induction l with
  | nil => rfl
  | cons a t ih =>
    rw [List.mapM_cons, h a (List.mem_cons_self a t), ih (fun x hx => h x (List.mem_cons_of_mem a hx))]
    rfl

/-- One haplotype keeps its allele with probability `1 - p` and moves to each
of the 7 other alleles with probability `p / 7`; over 8 consecutive alleles
these probabilities sum to one. -/
theorem sum_haplotype_eq_one (p : ℝ) (a b x : Int) (hab : b = a + 7)
    (hx : x ∈ Finset.Icc a b) :
    ∑ y ∈ Finset.Icc a b, (if x = y then 1 - p else p / 7) = 1 := by
  have h : ∀ y : Int, (if x = y then 1 - p else p / 7)
      = p / 7 + (if x = y then 1 - p - p / 7 else 0) := by
    intro y; split_ifs <;> ring
  simp only [h, Finset.sum_add_distrib, Finset.sum_const, Finset.sum_ite_eq, hx, if_true,
    Int.card_Icc]
  have hc : (b + 1 - a).toNat = 8 := by
    have : b + 1 - a = 8 := by rw [hab]; ring
    rw [this]; rfl
  rw [hc]
  simp
  ring

/-- The exponential of a table entry is the product of the two haplotype
transition probabilities. -/
theorem exp_spec_step_table (p : ℝ) (hp0 : 0 < p) (hp1 : p < 1) (l r : Int × Int) :
    Real.exp (spec_step_table Real.log l r p) =
      (if l.1 = r.1 then 1 - p else p / 7) * (if l.2 = r.2 then 1 - p else p / 7) := by
  have h1p : 0 < 1 - p := by linarith
  have e1 : Real.exp (2 * Real.log (1 - p)) = (1 - p) * (1 - p) := by
    rw [two_mul, Real.exp_add, Real.exp_log h1p]
  have e2 : Real.exp (Real.log p + Real.log (1 - p) - Real.log 7) = p * (1 - p) / 7 := by
    rw [Real.exp_sub, Real.exp_add, Real.exp_log hp0, Real.exp_log h1p,
      Real.exp_log (by norm_num : (0 : ℝ) < 7)]
  have e3 : Real.exp (2 * Real.log p - Real.log 49) = p * p / 49 := by
    rw [Real.exp_sub, two_mul, Real.exp_add, Real.exp_log hp0,
      Real.exp_log (by norm_num : (0 : ℝ) < 49)]
  obtain ⟨l1, l2⟩ := l
  obtain ⟨r1, r2⟩ := r
  unfold spec_step_table
  dsimp only
  split_ifs <;> first
    | omega
    | rw [e1]
    | (rw [e2]; ring)
    | (rw [e3]; ring)


/-- The codes of `possible_gen` as a finite set. -/
theorem toFinset_possible_gen (is_x_chr is_female : Bool) :
    (possible_gen is_x_chr is_female).toFinset =
      if is_x_chr = true ∧ is_female = false then Finset.Icc 65 72 else Finset.Icc 1 64 := by
  ext c
  rw [List.mem_toFinset, mem_possible_gen]
  split_ifs <;> simp [Finset.mem_Icc]

/-- No code occurs twice in `possible_gen`. -/
theorem nodup_possible_gen (is_x_chr is_female : Bool) :
    (possible_gen is_x_chr is_female).Nodup := by
  cases is_x_chr <;> cases is_female <;> decide

/-- The value returned by `step_malX`. -/
theorem step_malX_eq {α : Type} [Field α] (E : Env α) (left right : Int) (r : α)
    (s : Int) (pg : List Int) (pa : List α)
    (hlen : E.ndebug = false → pg.length = pa.length) :
    step_malX E left right r s pg pa =
      .ok (if left = right then E.log (1 - E.DOrec_malX r s pg pa)
        else E.log (E.DOrec_malX r s pg pa) - E.log 7) := by
  simp only [step_malX, length_check_passes E pg pa hlen, Bool.false_eq_true, if_false]
  split_ifs <;> rfl

/-- A sum over the 64 codes is a sum over the 64 ordered allele pairs, when the
decoder is a bijection between them. -/
theorem sum_codes_eq_sum_pairs (dec : Int → Int × Int)
    (hdec : Set.BijOn dec (Set.Icc 1 64) (Set.Icc 1 8 ×ˢ Set.Icc 1 8)) (G : Int × Int → ℝ) :
    ∑ c ∈ Finset.Icc (1 : Int) 64, G (dec c)
      = ∑ a ∈ Finset.Icc (1 : Int) 8, ∑ b ∈ Finset.Icc (1 : Int) 8, G (a, b) := by
  rw [← Finset.sum_product (Finset.Icc (1 : Int) 8) (Finset.Icc (1 : Int) 8) G]
  refine Finset.sum_nbij dec ?_ ?_ ?_ (fun _ _ => rfl)
  · intro c hc
    have := hdec.mapsTo (by simpa using hc : c ∈ Set.Icc (1 : Int) 64)
    rw [Set.mem_prod, Set.mem_Icc, Set.mem_Icc] at this
    rw [Finset.mem_product, Finset.mem_Icc, Finset.mem_Icc]
    exact this
  · rw [Finset.coe_Icc]
    exact hdec.injOn
  · rw [Finset.coe_Icc, Finset.coe_product, Finset.coe_Icc]
    exact hdec.surjOn

/-- The decoder modelled from the spec is a bijection from the codes 1..64 onto
the ordered pairs of alleles in 1..8. -/
theorem mpp_decode_geno_spec_bijOn :
    Set.BijOn (fun c => mpp_decode_geno_spec c 8 true) (Set.Icc 1 64)
      (Set.Icc 1 8 ×ˢ Set.Icc 1 8) := by
  refine ⟨?_, ?_, ?_⟩
  · intro c hc
    rw [Set.mem_Icc] at hc
    simp only [mpp_decode_geno_spec, Set.mem_prod, Set.mem_Icc]
    omega
  · intro c hc d hd h
    rw [Set.mem_Icc] at hc hd
    simp only [mpp_decode_geno_spec, Prod.mk.injEq] at h
    omega
  · rintro ⟨a, b⟩ hab
    simp only [Set.mem_prod, Set.mem_Icc] at hab
    refine ⟨(a - 1) * 8 + b, ?_, ?_⟩
    · rw [Set.mem_Icc]; omega
    · simp only [mpp_decode_geno_spec, Prod.mk.injEq]
      omega

/-- C1: transition rows sum to one.  For every chromosome type and sex, every
left code of `possible_gen`, and every value of `recprob` strictly between 0
and 1 (`log` being the real logarithm and the decoder a bijection from the
codes 1..64 onto the ordered pairs of alleles in 1..8), `step` returns a
value for every right code of `possible_gen` (64 of them for an autosome or
female X, 8 for a male X) and the exponentials of these values sum to 1. -/
theorem C1_transition_rows_sum_to_one (E : Env ℝ) (gen_left : Int) (rec_frac : ℝ)
    (is_x_chr is_female : Bool) (cross_info : List Int) (n_gen : Int)
    (hlog : E.log = Real.log)
    (hdec : Set.BijOn (fun c => E.mpp_decode_geno c 8 true) (Set.Icc 1 64)
      (Set.Icc 1 8 ×ˢ Set.Icc 1 8))
    (hleft : gen_left ∈ possible_gen is_x_chr is_female)
    (hn : vec_get cross_info 0 = .ok n_gen)
    (hp0 : 0 < recprob E rec_frac is_x_chr is_female n_gen)
    (hp1 : recprob E rec_frac is_x_chr is_female n_gen < 1) :
    ∃ vals : List ℝ,
      (possible_gen is_x_chr is_female).mapM
          (fun gen_right => step E gen_left gen_right rec_frac is_x_chr is_female cross_info)
        = .ok vals
      ∧ vals.length = (if is_x_chr = true ∧ is_female = false then 8 else 64)
      ∧ (vals.map Real.exp).sum = 1 := by
  have hlen : E.ndebug = false → precc_gen.length = (precc_alpha : List ℝ).length :=
    fun _ => precc_length
  have hdisp : ∀ gen_right ∈ possible_gen is_x_chr is_female, _ :=
    fun gen_right hr => step_dispatch E gen_left gen_right rec_frac is_x_chr is_female
      cross_info n_gen (fun _ => check_geno_of_mem gen_left is_x_chr is_female hleft)
      (fun _ => check_geno_of_mem gen_right is_x_chr is_female hr) hn
  by_cases hm : is_x_chr = true ∧ is_female = false
  · obtain ⟨hx, hf⟩ := hm
    subst hx hf
    simp only [recprob, if_true, Bool.false_eq_true, if_false] at hp0 hp1
    have hstep : ∀ gen_right ∈ possible_gen true false,
        step E gen_left gen_right rec_frac true false cross_info =
          .ok (if gen_left = gen_right then
              Real.log (1 - E.DOrec_malX rec_frac n_gen precc_gen precc_alpha)
            else Real.log (E.DOrec_malX rec_frac n_gen precc_gen precc_alpha) - Real.log 7) := by
      intro gen_right hr
      rw [hdisp gen_right hr, ← hlog]
      simp only [and_self, if_true]
      exact step_malX_eq E gen_left gen_right rec_frac n_gen precc_gen precc_alpha hlen
    refine ⟨_, mapM_ok_of_forall _ _ _ hstep, by simp [possible_gen], ?_⟩
    rw [List.map_map, ← List.sum_toFinset _ (nodup_possible_gen true false),
      toFinset_possible_gen]
    simp only [and_self, if_true]
    have hmem : gen_left ∈ Finset.Icc (65 : Int) 72 := by
      have := (mem_possible_gen gen_left true false).1 hleft
      simpa [Finset.mem_Icc] using this
    refine Eq.trans (Finset.sum_congr rfl (fun c _ => ?_))
      (sum_haplotype_eq_one (E.DOrec_malX rec_frac n_gen precc_gen precc_alpha) 65 72 gen_left
        (by norm_num) hmem)
    simp only [Function.comp]
    split_ifs
    · rw [Real.exp_log (by linarith)]
    · rw [Real.exp_sub, Real.exp_log hp0, Real.exp_log (by norm_num : (0 : ℝ) < 7)]
  · have hstep : ∀ gen_right ∈ possible_gen is_x_chr is_female,
        step E gen_left gen_right rec_frac is_x_chr is_female cross_info =
          .ok (spec_step_table Real.log (E.mpp_decode_geno gen_left 8 true)
            (E.mpp_decode_geno gen_right 8 true)
            (recprob E rec_frac is_x_chr is_female n_gen)) := by
      intro gen_right hr
      rw [hdisp gen_right hr, if_neg hm, ← hlog]
      cases is_x_chr <;> cases is_female
      · simpa [recprob] using step_auto_eq_table E gen_left gen_right rec_frac n_gen
          precc_gen precc_alpha hlen
      · simpa [recprob] using step_auto_eq_table E gen_left gen_right rec_frac n_gen
          precc_gen precc_alpha hlen
      · exact absurd ⟨rfl, rfl⟩ hm
      · simpa [recprob] using step_femX_eq_table E gen_left gen_right rec_frac n_gen
          precc_gen precc_alpha hlen
    have hlen64 : (possible_gen is_x_chr is_female).length = 64 := by
      cases is_x_chr <;> cases is_female <;> first | rfl | exact absurd ⟨rfl, rfl⟩ hm
    refine ⟨_, mapM_ok_of_forall _ _ _ hstep, by rw [List.length_map, hlen64, if_neg hm], ?_⟩
    rw [List.map_map, ← List.sum_toFinset _ (nodup_possible_gen is_x_chr is_female),
      toFinset_possible_gen, if_neg hm]
    simp only [Function.comp, exp_spec_step_table _ hp0 hp1]
    have hl64 : gen_left ∈ Set.Icc (1 : Int) 64 := by
      have := (mem_possible_gen gen_left is_x_chr is_female).1 hleft
      rw [if_neg hm] at this
      exact this
    have hpair := hdec.mapsTo hl64
    rw [Set.mem_prod, Set.mem_Icc, Set.mem_Icc] at hpair
    refine Eq.trans (sum_codes_eq_sum_pairs (fun c => E.mpp_decode_geno c 8 true) hdec
      (fun pr => (if (E.mpp_decode_geno gen_left 8 true).1 = pr.1 then
            1 - recprob E rec_frac is_x_chr is_female n_gen
          else recprob E rec_frac is_x_chr is_female n_gen / 7)
        * (if (E.mpp_decode_geno gen_left 8 true).2 = pr.2 then
            1 - recprob E rec_frac is_x_chr is_female n_gen
          else recprob E rec_frac is_x_chr is_female n_gen / 7))) ?_
    have h1 := sum_haplotype_eq_one (recprob E rec_frac is_x_chr is_female n_gen) 1 8
      (E.mpp_decode_geno gen_left 8 true).1 (by norm_num) (Finset.mem_Icc.2 hpair.1)
    have h2 := sum_haplotype_eq_one (recprob E rec_frac is_x_chr is_female n_gen) 1 8
      (E.mpp_decode_geno gen_left 8 true).2 (by norm_num) (Finset.mem_Icc.2 hpair.2)
    refine Eq.trans (Finset.sum_congr rfl (fun a _ => ?_)) h1
    dsimp only
    rw [← Finset.mul_sum, h2, mul_one]

/-- Witness for C1: debug build, autosome, left code 1, `recprob = 1/2`. -/
theorem C1_transition_rows_sum_to_one_witness :
    ∃ vals : List ℝ,
      (possible_gen false false).mapM
          (fun gen_right => step (sample_env Real.log false) 1 gen_right (1 / 2) false false [5])
        = .ok vals
      ∧ vals.length = (if false = true ∧ false = false then 8 else 64)
      ∧ (vals.map Real.exp).sum = 1 :=
  C1_transition_rows_sum_to_one (sample_env Real.log false) 1 (1 / 2) false false [5] 5 rfl
    mpp_decode_geno_spec_bijOn (by decide) rfl
    (by simp [recprob, sample_env]) (by simp [recprob, sample_env]; norm_num)

/-- Reading `entry` inside the matrix gives `elem`. -/
theorem IntegerMatrix.entry_eq_elem (m : IntegerMatrix) (i : Fin m.nrow) (j : Fin m.ncol) :
    m.entry i.val j.val = some (m.elem i j) := by
  simp only [IntegerMatrix.entry, i.isLt, j.isLt, and_self, if_true, IntegerMatrix.elem]
  exact List.getElem?_eq_getElem _

/-- C11 (amended): `check_founder_geno_values` returns false exactly when some
entry of the matrix is outside the three values 0, 1 (homozygous reference)
and 3 (homozygous alternate), and true when every entry is one of these; a
heterozygous entry (2) is rejected and a 0 entry is accepted. -/
theorem C11_check_founder_geno_values_013 (founder_geno : IntegerMatrix) :
    ((check_founder_geno_values founder_geno).1 = false ↔
      ∃ f mar v, founder_geno.entry f mar = some v ∧ v ≠ 0 ∧ v ≠ 1 ∧ v ≠ 3)
    ∧ ((check_founder_geno_values founder_geno).1 = true ↔
      ∀ f mar v, founder_geno.entry f mar = some v → v = 0 ∨ v = 1 ∨ v = 3) := by
  have hall : (check_founder_geno_values founder_geno).1 = true ↔
      ∀ (f : Fin founder_geno.nrow) (mar : Fin founder_geno.ncol),
        founder_geno.elem f mar = 0 ∨ founder_geno.elem f mar = 1
          ∨ founder_geno.elem f mar = 3 := by
    unfold check_founder_geno_values
    dsimp only
    split_ifs with h
    · simp only [List.all_eq_true, List.mem_finRange, true_implies] at h
      simp only [true_iff]
      intro f mar
      have := h f mar
      simp only [Bool.not_eq_true', decide_eq_false_iff_not] at this
      omega
    · simp only [Bool.false_eq_true, false_iff]
      intro hc
      apply h
      simp only [List.all_eq_true, List.mem_finRange, true_implies]
      intro f mar
      have := hc f mar
      simp only [Bool.not_eq_true', decide_eq_false_iff_not]
      omega
  have hent : (∀ f mar v, founder_geno.entry f mar = some v → v = 0 ∨ v = 1 ∨ v = 3) ↔
      ∀ (f : Fin founder_geno.nrow) (mar : Fin founder_geno.ncol),
        founder_geno.elem f mar = 0 ∨ founder_geno.elem f mar = 1
          ∨ founder_geno.elem f mar = 3 := by
    constructor
    · intro h f mar
      exact h f.val mar.val _ (founder_geno.entry_eq_elem f mar)
    · intro h f mar v hv
      by_cases hin : f < founder_geno.nrow ∧ mar < founder_geno.ncol
      · have := founder_geno.entry_eq_elem ⟨f, hin.1⟩ ⟨mar, hin.2⟩
        rw [hv] at this
        cases this
        exact h ⟨f, hin.1⟩ ⟨mar, hin.2⟩
      · simp [IntegerMatrix.entry, hin] at hv
  refine ⟨?_, hall.trans hent.symm⟩
  rw [← Bool.not_eq_true, hall, ← hent]
  constructor
  · intro h
    by_contra hc
    apply h
    intro f mar v hv
    by_contra hv2
    exact hc ⟨f, mar, v, hv, by omega⟩
  · rintro ⟨f, mar, v, hv, h0, h1, h3⟩ h
    have := h f mar v hv
    omega

/-- C11 as stated fails in both directions: a matrix whose only entry is the
heterozygous value 2 is rejected although 2 is one of the three values of the
claim, and a matrix whose only entry is 0 is accepted although 0 is not. -/
theorem C11_counterexample_het_and_zero :
    founder_geno_het.entry 0 0 = some 2
    ∧ check_founder_geno_values founder_geno_het = (false, [Message.founder_geno_invalid])
    ∧ founder_geno_zero.entry 0 0 = some 0
    ∧ check_founder_geno_values founder_geno_zero = (true, []) := by
  decide

/-- The loop of `check_is_female_vector` counts a positive number of missing
cells exactly when one was counted before or the vector holds a missing cell. -/
theorem count_missing_pos (l : List Int) (k : Nat) :
    0 < l.foldl (fun n_missing x => if x = NA_LOGICAL then n_missing + 1 else n_missing) k
      ↔ 0 < k ∨ NA_LOGICAL ∈ l := by
  induction l generalizing k with
  | nil => simp
  | cons a t ih =>
    rw [List.foldl_cons, ih]
    by_cases h : a = NA_LOGICAL
    · simp [h]
    · have h2 : ¬ NA_LOGICAL = a := fun e => h e.symm
      simp [h, h2]

/-- C12: `check_is_female_vector` returns false exactly when `any_x_chr` holds
and the sex vector is empty or contains a missing entry; without an X
chromosome it returns true, with no message, for every vector. -/
theorem C12_check_is_female_vector_iff (is_female : List Int) (any_x_chr : Bool) :
    ((check_is_female_vector is_female any_x_chr).1 = false ↔
      any_x_chr = true ∧ (is_female = [] ∨ NA_LOGICAL ∈ is_female))
    ∧ check_is_female_vector is_female false = (true, []) := by
  refine ⟨?_, by simp [check_is_female_vector]⟩
  cases any_x_chr
  · simp [check_is_female_vector]
  · by_cases hn : is_female = []
    · simp [check_is_female_vector, hn]
    · have hlen : ¬ is_female.length = 0 := fun h => hn (List.length_eq_zero.1 h)
      have hc := count_missing_pos is_female 0
      simp only [lt_self_iff_false, false_or] at hc
      by_cases hm : NA_LOGICAL ∈ is_female
      · simp [check_is_female_vector, hlen, hn, hm, hc.2 hm]
      · have : ¬ 0 < is_female.foldl
            (fun n_missing x => if x = NA_LOGICAL then n_missing + 1 else n_missing) 0 :=
          fun h => hm (hc.1 h)
        simp [check_is_female_vector, hlen, hn, hm, this]

/-- No `step_*` function raises the length-mismatch error on tables of equal length. -/
theorem step_no_invalid_argument {α : Type} [Field α] (E : Env α)
    (gen_left gen_right : Int) (rec_frac : α) (is_x_chr is_female : Bool)
    (cross_info : List Int) :
    ¬ step E gen_left gen_right rec_frac is_x_chr is_female cross_info
      = .error Err.invalid_argument := by
  have hlen : (!E.ndebug && decide (precc_gen.length ≠ (precc_alpha : List α).length)) = false :=
    length_check_passes E precc_gen precc_alpha (fun _ => precc_length)
  unfold step
  by_cases h1 : (!E.ndebug && (!check_geno gen_left false is_x_chr is_female ||
      !check_geno gen_right false is_x_chr is_female)) = true
  · rw [if_pos h1]
    simp
  · rw [if_neg h1]
    cases hv : vec_get cross_info 0 with
    | error e =>
      simp only [Except.bind]
      intro h
      cases h
      simp only [vec_get] at hv
      split_ifs at hv
      · split at hv <;> cases hv
      · cases hv
    | ok n_gen =>
      simp only [Except.bind]
      cases is_x_chr <;> cases is_female <;>
        simp only [step_auto, step_femX, step_malX, hlen, Bool.false_eq_true, if_false,
          if_true] <;>
        split_ifs <;> simp

/-- C16: the static tables of `step` pair the generation counts 4, 5, ..., 12
with the weights 21/144, 64/144, 24/144, 10/144, 5/144, 9/144, 5/144, 3/144,
3/144; both have nine entries, so that `step` never raises the length-mismatch
error of the `step_*` functions; every weight is non-negative and the weights
sum to exactly 1. -/
theorem C16_precc_tables (E : Env ℝ) (gen_left gen_right : Int) (rec_frac : ℝ)
    (is_x_chr is_female : Bool) (cross_info : List Int) :
    List.zip precc_gen (precc_alpha : List ℝ) =
        [(4, 21 / 144), (5, 64 / 144), (6, 24 / 144), (7, 10 / 144), (8, 5 / 144),
          (9, 9 / 144), (10, 5 / 144), (11, 3 / 144), (12, 3 / 144)]
    ∧ precc_gen.length = 9 ∧ (precc_alpha : List ℝ).length = 9
    ∧ ¬ step E gen_left gen_right rec_frac is_x_chr is_female cross_info
        = .error Err.invalid_argument
    ∧ (∀ w ∈ (precc_alpha : List ℝ), 0 ≤ w)
    ∧ (precc_alpha : List ℝ).sum = 1 := by
  refine ⟨rfl, rfl, rfl, step_no_invalid_argument E _ _ _ _ _ _, ?_, ?_⟩
  · intro w hw
    simp only [precc_alpha, List.mem_cons, List.mem_singleton, List.not_mem_nil, or_false] at hw
    rcases hw with rfl | rfl | rfl | rfl | rfl | rfl | rfl | rfl | rfl <;> norm_num
  · simp only [precc_alpha, List.sum_cons, List.sum_nil]
    norm_num

/-- C17: `est_rec_frac` fails with the "not yet available" error for every
input and so never returns a number; `nrec` returns the sentinel `NA_REAL` for
every input and never fails. -/
theorem C17_est_rec_frac_fails_nrec_is_NA {α : Type} (gamma : List α) (is_x_chr is_female : Bool)
    (cross_info_matrix : IntegerMatrix) (n_gen gen_left gen_right : Int)
    (cross_info : List Int) :
    (est_rec_frac gamma is_x_chr cross_info_matrix n_gen : Except Err (Numeric α))
        = .error Err.stop
    ∧ (nrec gen_left gen_right is_x_chr is_female cross_info : Except Err (Numeric α))
        = .ok Numeric.NA_REAL :=
  ⟨rfl, rfl⟩

/-- The value returned by `init` when the debug check passes. -/
theorem init_eq {α : Type} [Field α] (E : Env α) (true_gen : Int) (is_x_chr is_female : Bool)
    (h : E.ndebug = false → check_geno true_gen false is_x_chr is_female = true) :
    init E true_gen is_x_chr is_female =
      .ok (if is_x_chr = false ∨ is_female = true then -E.log 64 else -E.log 8) := by
  simp only [init, check_passes E true_gen is_x_chr is_female h, Bool.false_eq_true, if_false]
  cases is_x_chr <;> cases is_female <;> simp

/-- C13: `init` returns `log(1/64)` for every valid code on an autosome or a
female X and `log(1/8)` for every valid code on a male X, whatever the code
(`cross_info` is not an input of the model: the source never reads it); hence
`init` returns a value on every code of `possible_gen` and the exponentials of
these values sum to 1. -/
theorem C13_init_uniform (E : Env ℝ) (true_gen : Int) (is_x_chr is_female : Bool)
    (hlog : E.log = Real.log)
    (hvalid : true_gen ∈ possible_gen is_x_chr is_female) :
    init E true_gen is_x_chr is_female =
        .ok (if is_x_chr = false ∨ is_female = true then Real.log (1 / 64)
          else Real.log (1 / 8))
    ∧ ∃ vals : List ℝ,
      (possible_gen is_x_chr is_female).mapM (fun c => init E c is_x_chr is_female) = .ok vals
      ∧ (vals.map Real.exp).sum = 1 := by
  have hval : ∀ c ∈ possible_gen is_x_chr is_female,
      init E c is_x_chr is_female =
        .ok (if is_x_chr = false ∨ is_female = true then Real.log (1 / 64)
          else Real.log (1 / 8)) := by
    intro c hc
    rw [init_eq E c is_x_chr is_female (fun _ => check_geno_of_mem c is_x_chr is_female hc),
      hlog]
    split_ifs <;> simp [Real.log_inv]
  refine ⟨hval true_gen hvalid, _, mapM_ok_of_forall _ _ _ hval, ?_⟩
  have hconst : ∀ (v : ℝ) (l : List Int),
      ((l.map (fun _ => v)).map Real.exp).sum = l.length * Real.exp v := by
    intro v l
    induction l with
    | nil => simp
    | cons a t ih =>
      simp only [List.map_cons, List.sum_cons, List.length_cons, ih]
      push_cast
      ring
  rw [hconst]
  have e64 : Real.exp (-Real.log 64) = 1 / 64 := by
    rw [Real.exp_neg, Real.exp_log (by norm_num)]; norm_num
  have e8 : Real.exp (-Real.log 8) = 1 / 8 := by
    rw [Real.exp_neg, Real.exp_log (by norm_num)]; norm_num
  cases is_x_chr <;> cases is_female <;> simp [possible_gen, e64, e8]

/-- Witness for C13: debug build, male X, code 70. -/
theorem C13_init_uniform_witness :
    init (sample_env Real.log false) 70 true false = .ok (Real.log (1 / 8)) :=
  (C13_init_uniform (sample_env Real.log false) 70 true false rfl (by decide)).1

/-- With the real logarithm the specification table is the sum of the two
per-haplotype terms. -/
theorem spec_step_table_factor (p : ℝ) (l r : Int × Int) :
    spec_step_table Real.log l r p =
      spec_haplotype_step Real.log p l.1 r.1 + spec_haplotype_step Real.log p l.2 r.2 := by
  have h49 : Real.log 49 = 2 * Real.log 7 := by
    have : (49 : ℝ) = 7 ^ 2 := by norm_num
    rw [this, Real.log_pow]
    norm_num
  obtain ⟨l1, l2⟩ := l
  obtain ⟨r1, r2⟩ := r
  unfold spec_step_table spec_haplotype_step
  dsimp only
  split_ifs <;> first
    | omega
    | (rw [h49]; ring)
    | ring

/-- The per-haplotype term is symmetric in its two alleles. -/
theorem spec_haplotype_step_comm {α : Type} [Field α] (log : α → α) (p : α) (x y : Int) :
    spec_haplotype_step log p x y = spec_haplotype_step log p y x := by
  unfold spec_haplotype_step
  by_cases h : x = y
  · subst h; rfl
  · have h2 : ¬ y = x := fun e => h e.symm
    rw [if_neg h, if_neg h2]

/-- C19: with the real logarithm, `step_auto` and `step_femX` return
`h(l1, r1) + h(l2, r2)` on codes decoding to `(l1, l2)` and `(r1, r2)`, where
`h(x, y)` is `log(1 - recprob)` if `x = y` and `log(recprob) - log(7)`
otherwise (the form of `step_malX`).  Hence the value is determined by the
number of positions whose allele changed, and exchanging left and right does
not change it. -/
theorem C19_step_factorises (E : Env ℝ) (left right : Int) (r : ℝ) (s : Int)
    (pg : List Int) (pa : List ℝ)
    (hlog : E.log = Real.log)
    (hlen : E.ndebug = false → pg.length = pa.length) :
    step_auto E left right r s pg pa =
        .ok (spec_haplotype_step Real.log (E.DOrec_auto r s pg pa)
              (E.mpp_decode_geno left 8 true).1 (E.mpp_decode_geno right 8 true).1
            + spec_haplotype_step Real.log (E.DOrec_auto r s pg pa)
              (E.mpp_decode_geno left 8 true).2 (E.mpp_decode_geno right 8 true).2)
    ∧ step_femX E left right r s pg pa =
        .ok (spec_haplotype_step Real.log (E.DOrec_femX r s pg pa)
              (E.mpp_decode_geno left 8 true).1 (E.mpp_decode_geno right 8 true).1
            + spec_haplotype_step Real.log (E.DOrec_femX r s pg pa)
              (E.mpp_decode_geno left 8 true).2 (E.mpp_decode_geno right 8 true).2)
    ∧ (∀ p : ℝ,
        spec_haplotype_step Real.log p
            (E.mpp_decode_geno left 8 true).1 (E.mpp_decode_geno right 8 true).1
          + spec_haplotype_step Real.log p
            (E.mpp_decode_geno left 8 true).2 (E.mpp_decode_geno right 8 true).2
        = (2 - (((if (E.mpp_decode_geno left 8 true).1 = (E.mpp_decode_geno right 8 true).1
                then 0 else 1)
              + (if (E.mpp_decode_geno left 8 true).2 = (E.mpp_decode_geno right 8 true).2
                then 0 else 1) : ℕ) : ℝ)) * Real.log (1 - p)
          + (((if (E.mpp_decode_geno left 8 true).1 = (E.mpp_decode_geno right 8 true).1
                then 0 else 1)
              + (if (E.mpp_decode_geno left 8 true).2 = (E.mpp_decode_geno right 8 true).2
                then 0 else 1) : ℕ) : ℝ) * (Real.log p - Real.log 7))
    ∧ step_auto E left right r s pg pa = step_auto E right left r s pg pa
    ∧ step_femX E left right r s pg pa = step_femX E right left r s pg pa := by
  have ha : ∀ a b : Int, step_auto E a b r s pg pa =
      .ok (spec_haplotype_step Real.log (E.DOrec_auto r s pg pa)
            (E.mpp_decode_geno a 8 true).1 (E.mpp_decode_geno b 8 true).1
          + spec_haplotype_step Real.log (E.DOrec_auto r s pg pa)
            (E.mpp_decode_geno a 8 true).2 (E.mpp_decode_geno b 8 true).2) := by
    intro a b
    rw [step_auto_eq_table E a b r s pg pa hlen, hlog, spec_step_table_factor]
  have hf : ∀ a b : Int, step_femX E a b r s pg pa =
      .ok (spec_haplotype_step Real.log (E.DOrec_femX r s pg pa)
            (E.mpp_decode_geno a 8 true).1 (E.mpp_decode_geno b 8 true).1
          + spec_haplotype_step Real.log (E.DOrec_femX r s pg pa)
            (E.mpp_decode_geno a 8 true).2 (E.mpp_decode_geno b 8 true).2) := by
    intro a b
    rw [step_femX_eq_table E a b r s pg pa hlen, hlog, spec_step_table_factor]
  refine ⟨ha left right, hf left right, ?_, ?_, ?_⟩
  · intro p
    unfold spec_haplotype_step
    split_ifs <;> push_cast <;> ring
  · rw [ha left right, ha right left,
      spec_haplotype_step_comm Real.log _ (E.mpp_decode_geno left 8 true).1,
      spec_haplotype_step_comm Real.log _ (E.mpp_decode_geno left 8 true).2]
  · rw [hf left right, hf right left,
      spec_haplotype_step_comm Real.log _ (E.mpp_decode_geno left 8 true).1,
      spec_haplotype_step_comm Real.log _ (E.mpp_decode_geno left 8 true).2]

/-- Witness for C19: debug build, codes 2 and 10, decoded to `(1, 2)` and
`(2, 2)` by the decoder modelled from the spec, `recprob = 1/4`. -/
theorem C19_step_factorises_witness :
    step_auto (sample_env Real.log false) 2 10 (1 / 4) 5 precc_gen precc_alpha =
      .ok (spec_haplotype_step Real.log (1 / 4) 1 2 + spec_haplotype_step Real.log (1 / 4) 2 2) :=
  (C19_step_factorises (sample_env Real.log false) 2 10 (1 / 4) 5 precc_gen precc_alpha rfl
    (fun _ => rfl)).1

/-- With both founder genotypes homozygous, `emit` on a non-missing call is the
outer `switch((f1+f2)/2)` with its fall-through. -/
theorem emit_both_known_eq {α : Type} [Field α] (E : Env α) (obs_gen true_gen : Int)
    (error_prob : α) (founder_geno : List Int) (is_x_chr is_female : Bool) (i j f1 f2 : Int)
    (hchr : is_x_chr = false ∨ is_female = true)
    (hvalid : E.ndebug = false → check_geno true_gen false is_x_chr is_female = true)
    (hdec : E.mpp_decode_geno true_gen 8 true = (i, j))
    (hf1 : vec_get founder_geno (i - 1) = .ok f1)
    (hf2 : vec_get founder_geno (j - 1) = .ok f2)
    (hk1 : f1 = 1 ∨ f1 = 3) (hk2 : f2 = 1 ∨ f2 = 3) (ho : obs_gen ≠ 0) :
    emit E obs_gen true_gen error_prob founder_geno is_x_chr is_female =
      if (f1 + f2) / 2 = 1 then
        .ok ((emit_both_caseA E obs_gen error_prob <|> emit_both_caseH E obs_gen error_prob
              <|> emit_both_caseB E obs_gen error_prob).getD 0)
      else if (f1 + f2) / 2 = 2 then
        .ok ((emit_both_caseH E obs_gen error_prob
              <|> emit_both_caseB E obs_gen error_prob).getD 0)
      else .ok ((emit_both_caseB E obs_gen error_prob).getD 0) := by
  have hc := check_passes E true_gen is_x_chr is_female hvalid
  have hx : (!is_x_chr || is_female) = true := by
    rcases hchr with h | h <;> simp [h]
  have t2 : Int.tdiv 2 2 = 1 := by decide
  have t4 : Int.tdiv 4 2 = 2 := by decide
  have t6 : Int.tdiv 6 2 = 3 := by decide
  rcases hk1 with rfl | rfl <;> rcases hk2 with rfl | rfl <;>
    simp [emit, hc, hx, ho, hdec, hf1, hf2, Except.bind, add_int, INT_MIN, INT_MAX, A, H, B,
      t2, t4, t6]

/-- C20: autosome or female X, both founder genotypes homozygous (so that the
consensus is any of the three genotypes), real logarithm and `0 < e < 1`.
`emit` returns a value for each of the calls `A`, `H`, `B`, `notA`, `notB`, and
the exponentials satisfy `A + H + B = 1`, `notA = H + B` and `notB = A + H`. -/
theorem C20_emission_probabilities_consistent (E : Env ℝ) (true_gen : Int) (error_prob : ℝ)
    (founder_geno : List Int) (is_x_chr is_female : Bool) (i j f1 f2 : Int)
    (hlog : E.log = Real.log)
    (he0 : 0 < error_prob) (he1 : error_prob < 1)
    (hchr : is_x_chr = false ∨ is_female = true)
    (hvalid : E.ndebug = false → check_geno true_gen false is_x_chr is_female = true)
    (hdec : E.mpp_decode_geno true_gen 8 true = (i, j))
    (hf1 : vec_get founder_geno (i - 1) = .ok f1)
    (hf2 : vec_get founder_geno (j - 1) = .ok f2)
    (hk1 : f1 = 1 ∨ f1 = 3) (hk2 : f2 = 1 ∨ f2 = 3) :
    ∃ a h b na nb : ℝ,
      emit E A true_gen error_prob founder_geno is_x_chr is_female = .ok a
      ∧ emit E H true_gen error_prob founder_geno is_x_chr is_female = .ok h
      ∧ emit E B true_gen error_prob founder_geno is_x_chr is_female = .ok b
      ∧ emit E notA true_gen error_prob founder_geno is_x_chr is_female = .ok na
      ∧ emit E notB true_gen error_prob founder_geno is_x_chr is_female = .ok nb
      ∧ Real.exp a + Real.exp h + Real.exp b = 1
      ∧ Real.exp na = Real.exp h + Real.exp b
      ∧ Real.exp nb = Real.exp a + Real.exp h := by
  have key := fun (obs : Int) (ho : obs ≠ 0) =>
    emit_both_known_eq E obs true_gen error_prob founder_geno is_x_chr is_female i j f1 f2
      hchr hvalid hdec hf1 hf2 hk1 hk2 ho
  have x1 : Real.exp (Real.log (1 - error_prob)) = 1 - error_prob :=
    Real.exp_log (by linarith)
  have x2 : Real.exp (Real.log (error_prob / 2)) = error_prob / 2 :=
    Real.exp_log (by linarith)
  have x3 : Real.exp (Real.log error_prob) = error_prob := Real.exp_log he0
  have x4 : Real.exp (Real.log (1 - error_prob / 2)) = 1 - error_prob / 2 :=
    Real.exp_log (by linarith)
  have c2 : ((1 : Int) + 1) / 2 = 1 := by decide
  have c4 : ((1 : Int) + 3) / 2 = 2 := by decide
  have c4b : ((3 : Int) + 1) / 2 = 2 := by decide
  have c6 : ((3 : Int) + 3) / 2 = 3 := by decide
  rcases hk1 with rfl | rfl <;> rcases hk2 with rfl | rfl
  · refine ⟨Real.log (1 - error_prob), Real.log (error_prob / 2), Real.log (error_prob / 2),
      Real.log error_prob, Real.log (1 - error_prob / 2), ?_, ?_, ?_, ?_, ?_, ?_, ?_, ?_⟩
    · rw [key A (by decide)]; simp [c2, emit_both_caseA, hlog]
    · rw [key H (by decide)]; simp [c2, emit_both_caseA, hlog, A, H]
    · rw [key B (by decide)]; simp [c2, emit_both_caseA, hlog, A, H, B]
    · rw [key notA (by decide)]; simp [c2, emit_both_caseA, hlog, A, H, B, notA]
    · rw [key notB (by decide)]; simp [c2, emit_both_caseA, hlog, A, H, B, notA, notB]
    · rw [x1, x2]; ring
    · rw [x3, x2]; ring
    · rw [x4, x1, x2]; ring
  · refine ⟨Real.log (error_prob / 2), Real.log (1 - error_prob), Real.log (error_prob / 2),
      Real.log (1 - error_prob / 2), Real.log (1 - error_prob / 2), ?_, ?_, ?_, ?_, ?_, ?_, ?_, ?_⟩
    · rw [key A (by decide)]; simp [c4, emit_both_caseH, hlog]
    · rw [key H (by decide)]; simp [c4, emit_both_caseH, hlog, A, H]
    · rw [key B (by decide)]; simp [c4, emit_both_caseH, hlog, A, H, B]
    · rw [key notA (by decide)]; simp [c4, emit_both_caseH, hlog, A, H, B, notA]
    · rw [key notB (by decide)]; simp [c4, emit_both_caseH, hlog, A, H, B, notA, notB]
    · rw [x1, x2]; ring
    · rw [x4, x1, x2]; ring
    · rw [x4, x1, x2]; ring
  · refine ⟨Real.log (error_prob / 2), Real.log (1 - error_prob), Real.log (error_prob / 2),
      Real.log (1 - error_prob / 2), Real.log (1 - error_prob / 2), ?_, ?_, ?_, ?_, ?_, ?_, ?_, ?_⟩
    · rw [key A (by decide)]; simp [c4b, emit_both_caseH, hlog]
    · rw [key H (by decide)]; simp [c4b, emit_both_caseH, hlog, A, H]
    · rw [key B (by decide)]; simp [c4b, emit_both_caseH, hlog, A, H, B]
    · rw [key notA (by decide)]; simp [c4b, emit_both_caseH, hlog, A, H, B, notA]
    · rw [key notB (by decide)]; simp [c4b, emit_both_caseH, hlog, A, H, B, notA, notB]
    · rw [x1, x2]; ring
    · rw [x4, x1, x2]; ring
    · rw [x4, x1, x2]; ring
  · refine ⟨Real.log (error_prob / 2), Real.log (error_prob / 2), Real.log (1 - error_prob),
      Real.log (1 - error_prob / 2), Real.log error_prob, ?_, ?_, ?_, ?_, ?_, ?_, ?_, ?_⟩
    · rw [key A (by decide)]; simp [c6, emit_both_caseB, hlog, A, H, B]
    · rw [key H (by decide)]; simp [c6, emit_both_caseB, hlog, A, H, B]
    · rw [key B (by decide)]; simp [c6, emit_both_caseB, hlog, A, H, B]
    · rw [key notA (by decide)]; simp [c6, emit_both_caseB, hlog, A, H, B, notA, notB]
    · rw [key notB (by decide)]; simp [c6, emit_both_caseB, hlog, A, H, B, notA, notB]
    · rw [x1, x2]; ring
    · rw [x4, x1, x2]; ring
    · rw [x3, x2]; ring

/-- Witness for C20: debug build, autosome, code 1 decoded to founders `(1, 1)`,
both `A`, error probability 1/100. -/
theorem C20_emission_probabilities_consistent_witness :
    ∃ a h b na nb : ℝ,
      emit (sample_env Real.log false) A 1 (1 / 100) [1, 3, 1, 3, 1, 3, 1, 3] false false = .ok a
      ∧ emit (sample_env Real.log false) H 1 (1 / 100) [1, 3, 1, 3, 1, 3, 1, 3] false false = .ok h
      ∧ emit (sample_env Real.log false) B 1 (1 / 100) [1, 3, 1, 3, 1, 3, 1, 3] false false = .ok b
      ∧ emit (sample_env Real.log false) notA 1 (1 / 100) [1, 3, 1, 3, 1, 3, 1, 3] false false
        = .ok na
      ∧ emit (sample_env Real.log false) notB 1 (1 / 100) [1, 3, 1, 3, 1, 3, 1, 3] false false
        = .ok nb
      ∧ Real.exp a + Real.exp h + Real.exp b = 1
      ∧ Real.exp na = Real.exp h + Real.exp b
      ∧ Real.exp nb = Real.exp a + Real.exp h :=
  C20_emission_probabilities_consistent (sample_env Real.log false) 1 (1 / 100)
    [1, 3, 1, 3, 1, 3, 1, 3] false false 1 1 1 1 rfl (by norm_num) (by norm_num) (Or.inl rfl)
    (fun _ => by decide) rfl rfl rfl (Or.inl rfl) (Or.inl rfl)

/-- A failed vector read is an out-of-bounds read. -/
theorem vec_get_error {β : Type} (v : List β) (i : Int) (e : Err)
    (h : vec_get v i = .error e) : e = Err.out_of_bounds := by
  unfold vec_get at h
  split_ifs at h
  · split at h <;> cases h
    rfl
  · cases h
    rfl

/-- A failed `int` addition is an overflow. -/
theorem add_int_error (a b : Int) (e : Err) (h : add_int a b = .error e) :
    e = Err.int_overflow := by
  unfold add_int at h
  split_ifs at h
  cases h
  rfl

/-- When its debug check passes, `emit` throws no exception: if it fails to
return a value, the cause is an out-of-bounds read or an `int` overflow. -/
theorem emit_error_of_valid {α : Type} [Field α] (E : Env α) (obs_gen true_gen : Int)
    (error_prob : α) (founder_geno : List Int) (is_x_chr is_female : Bool)
    (hvalid : E.ndebug = false → check_geno true_gen false is_x_chr is_female = true)
    (e : Err)
    (h : emit E obs_gen true_gen error_prob founder_geno is_x_chr is_female = .error e) :
    e = Err.out_of_bounds ∨ e = Err.int_overflow := by
  have hc := check_passes E true_gen is_x_chr is_female hvalid
  simp only [emit, hc, Bool.false_eq_true, if_false] at h
  by_cases ho : obs_gen = 0
  · simp [ho] at h
  · rw [if_neg ho] at h
    by_cases hx : (!is_x_chr || is_female) = true
    · rw [if_pos hx] at h
      cases h1 : vec_get founder_geno ((E.mpp_decode_geno true_gen 8 true).1 - 1) with
      | error e1 =>
        rw [h1] at h
        simp only [Except.bind] at h
        cases h
        exact Or.inl (vec_get_error _ _ _ h1)
      | ok f1 =>
        cases h2 : vec_get founder_geno ((E.mpp_decode_geno true_gen 8 true).2 - 1) with
        | error e2 =>
          rw [h1, h2] at h
          simp only [Except.bind] at h
          cases h
          exact Or.inl (vec_get_error _ _ _ h2)
        | ok f2 =>
          rw [h1, h2] at h
          simp only [Except.bind] at h
          generalize (if f1 = 2 then 0 else f1) = g1 at h
          generalize (if f2 = 2 then 0 else f2) = g2 at h
          cases h3 : add_int g1 g2 with
          | error e3 =>
            have := add_int_error _ _ _ h3
            rw [h3] at h
            split_ifs at h
            cases h
            exact Or.inr this
          | ok sum =>
            rw [h3] at h
            simp only [Except.bind] at h
            split_ifs at h
    · rw [if_neg hx] at h
      cases h1 : vec_get founder_geno (true_gen - 64 - 1) with
      | error e1 =>
        rw [h1] at h
        simp only [Except.bind] at h
        cases h
        exact Or.inl (vec_get_error _ _ _ h1)
      | ok fa =>
        rw [h1] at h
        simp only [Except.bind] at h
        split_ifs at h

/-- When its debug check passes, `step` throws no exception: if it fails to
return a value, the cause is the out-of-bounds read of `cross_info[0]`. -/
theorem step_error_of_valid {α : Type} [Field α] (E : Env α) (gen_left gen_right : Int)
    (rec_frac : α) (is_x_chr is_female : Bool) (cross_info : List Int)
    (hl : E.ndebug = false → check_geno gen_left false is_x_chr is_female = true)
    (hr : E.ndebug = false → check_geno gen_right false is_x_chr is_female = true)
    (e : Err)
    (h : step E gen_left gen_right rec_frac is_x_chr is_female cross_info = .error e) :
    e = Err.out_of_bounds := by
  cases hv : vec_get cross_info 0 with
  | error e1 =>
    have hc : (!E.ndebug && (!check_geno gen_left false is_x_chr is_female ||
        !check_geno gen_right false is_x_chr is_female)) = false := by
      cases hd : E.ndebug
      · simp [hl hd, hr hd]
      · simp
    simp only [step, hc, hv, Except.bind, Bool.false_eq_true, if_false] at h
    cases h
    exact vec_get_error _ _ _ hv
  | ok n_gen =>
    rw [step_dispatch E gen_left gen_right rec_frac is_x_chr is_female cross_info n_gen hl hr hv,
      step_malX_eq E _ _ _ _ _ _ (fun _ => precc_length),
      step_femX_eq_table E _ _ _ _ _ _ (fun _ => precc_length),
      step_auto_eq_table E _ _ _ _ _ _ (fun _ => precc_length)] at h
    split_ifs at h

/-- C15 (amended): in a debug build `init`, `emit` and `step` raise the domain
error exactly when a diplotype code passed to them (the true code; the left
or the right code) fails `check_geno(code, false, ...)`.  The observed call
of `emit` is not validated: it plays no part in the condition.  With
diplotype codes in range no exception is thrown: `init` returns, and `emit`
and `step` can only fail by reading a vector outside its bounds or, for
`emit`, by overflowing the sum of two founder genotypes. -/
theorem C15_debug_domain_errors {α : Type} [Field α] (E : Env α)
    (obs_gen true_gen gen_left gen_right : Int) (error_prob rec_frac : α)
    (founder_geno cross_info : List Int) (is_x_chr is_female : Bool)
    (hdebug : E.ndebug = false) :
    (init E true_gen is_x_chr is_female = .error Err.range_error ↔
      check_geno true_gen false is_x_chr is_female = false)
    ∧ (emit E obs_gen true_gen error_prob founder_geno is_x_chr is_female
        = .error Err.range_error ↔
      check_geno true_gen false is_x_chr is_female = false)
    ∧ (step E gen_left gen_right rec_frac is_x_chr is_female cross_info
        = .error Err.range_error ↔
      check_geno gen_left false is_x_chr is_female = false
        ∨ check_geno gen_right false is_x_chr is_female = false)
    ∧ (check_geno true_gen false is_x_chr is_female = true →
      (∃ v, init E true_gen is_x_chr is_female = .ok v)
      ∧ ∀ e, emit E obs_gen true_gen error_prob founder_geno is_x_chr is_female = .error e →
        e = Err.out_of_bounds ∨ e = Err.int_overflow)
    ∧ (check_geno gen_left false is_x_chr is_female = true →
      check_geno gen_right false is_x_chr is_female = true →
      ∀ e, step E gen_left gen_right rec_frac is_x_chr is_female cross_info = .error e →
        e = Err.out_of_bounds) := by
  refine ⟨?_, ?_, ?_, ?_, ?_⟩
  · cases hc : check_geno true_gen false is_x_chr is_female
    · simp [init, hdebug, hc]
    · rw [init_eq E true_gen is_x_chr is_female (fun _ => hc)]
      simp
  · cases hc : check_geno true_gen false is_x_chr is_female
    · simp [emit, hdebug, hc]
    · simp only [Bool.true_eq_false, iff_false]
      intro h
      have := emit_error_of_valid E obs_gen true_gen error_prob founder_geno is_x_chr is_female
        (fun _ => hc) _ h
      rcases this with h | h <;> cases h
  · cases hl : check_geno gen_left false is_x_chr is_female
    · simp [step, hdebug, hl]
    · cases hr : check_geno gen_right false is_x_chr is_female
      · simp [step, hdebug, hl, hr]
      · simp only [Bool.true_eq_false, or_self, iff_false]
        intro h
        have := step_error_of_valid E gen_left gen_right rec_frac is_x_chr is_female cross_info
          (fun _ => hl) (fun _ => hr) _ h
        cases this
  · intro hc
    refine ⟨⟨_, init_eq E true_gen is_x_chr is_female (fun _ => hc)⟩, fun e h => ?_⟩
    exact emit_error_of_valid E obs_gen true_gen error_prob founder_geno is_x_chr is_female
      (fun _ => hc) e h
  · intro hl hr e h
    exact step_error_of_valid E gen_left gen_right rec_frac is_x_chr is_female cross_info
      (fun _ => hl) (fun _ => hr) e h

/-- Witness for C15 (amended): debug build, autosome, the out-of-range true
code 65 makes `emit` raise the domain error. -/
theorem C15_debug_domain_errors_witness :
    emit (sample_env (fun x : ℚ => x) false) 1 65 (1 / 100) [1, 1, 1, 1, 1, 1, 1, 1] false false
      = .error Err.range_error :=
  (C15_debug_domain_errors (sample_env (fun x : ℚ => x) false) 1 65 1 1 (1 / 100) (1 / 4)
    [1, 1, 1, 1, 1, 1, 1, 1] [5] false false rfl).2.1.2 (by decide)

/-- C15 as stated fails: in a debug build, `emit` called on an autosome with
the observed-call code 6, which `check_geno(6, true, ...)` rejects, and the
valid true code 1 raises no error and returns 0. -/
theorem C15_counterexample_observed_call_unchecked :
    (sample_env (fun x : ℚ => x) false).ndebug = false
    ∧ check_geno 6 true false false = false
    ∧ check_geno 1 false false false = true
    ∧ emit (sample_env (fun x : ℚ => x) false) 6 1 (1 / 100) [1, 1, 1, 1, 1, 1, 1, 1]
        false false = .ok 0 := by
  refine ⟨rfl, by decide, by decide, ?_⟩
  simp [emit, sample_env, check_geno, mpp_decode_geno_spec, vec_get, Except.bind, add_int,
    INT_MIN, INT_MAX, A, H, B, notA, notB, emit_both_caseA, emit_both_caseH, emit_both_caseB]


/-- The linear index of a cell given by natural-number coordinates. -/
theorem NumericMatrix.offset_cast {α : Type} (m : NumericMatrix α) (r k : Nat) :
    m.offset (r : Int) (k : Int) = ((r + k * m.nrow : Nat) : Int) := by
  simp only [NumericMatrix.offset]
  push_cast
  ring

/-- Writing a cell inside the storage succeeds and replaces that cell. -/
theorem NumericMatrix.write_inside {α : Type} (m : NumericMatrix α) (r k : Nat) (x : α)
    (h : r + k * m.nrow < m.data.length) :
    m.write (r : Int) (k : Int) x = .ok { m with data := m.data.set (r + k * m.nrow) x } := by
  simp only [NumericMatrix.write, NumericMatrix.offset_cast, Int.toNat_ofNat]
  rw [if_pos ⟨Int.natCast_nonneg _, h⟩]

/-- Writing a cell outside the storage fails at that cell. -/
theorem NumericMatrix.write_outside {α : Type} (m : NumericMatrix α) (r k : Nat) (x : α)
    (h : m.data.length ≤ r + k * m.nrow) :
    m.write (r : Int) (k : Int) x = .error (Err.subscript_out_of_bounds r k) := by
  simp only [NumericMatrix.write, NumericMatrix.offset_cast, Int.toNat_ofNat]
  rw [if_neg (fun hc => absurd hc.2 (Nat.not_lt.2 h))]

/-- Adding to a cell inside the storage succeeds and updates that cell. -/
theorem NumericMatrix.add_assign_inside {α : Type} [Field α] (m : NumericMatrix α) (r k : Nat)
    (x v : α) (h : m.data[r + k * m.nrow]? = some v) :
    m.add_assign (r : Int) (k : Int) x =
      .ok { m with data := m.data.set (r + k * m.nrow) (v + x) } := by
  have hlt : r + k * m.nrow < m.data.length := by
    by_contra hc
    rw [List.getElem?_eq_none (Nat.not_lt.1 hc)] at h
    cases h
  simp only [NumericMatrix.add_assign, NumericMatrix.read, NumericMatrix.offset_cast,
    Int.toNat_ofNat, Int.natCast_nonneg, if_true, h, Except.bind]
  exact m.write_inside r k (v + x) hlt

/-- A write either fails at a matrix cell or keeps the dimensions and the
amount of storage. -/
theorem NumericMatrix.write_shape {α : Type} (m : NumericMatrix α) (i j : Int) (x : α) :
    (∃ a b, m.write i j x = .error (Err.subscript_out_of_bounds a b))
    ∨ ∃ m2, m.write i j x = .ok m2 ∧ m2.nrow = m.nrow ∧ m2.ncol = m.ncol
        ∧ m2.data.length = m.data.length := by
  unfold NumericMatrix.write
  split_ifs
  · exact Or.inr ⟨_, rfl, rfl, rfl, by simp⟩
  · exact Or.inl ⟨_, _, rfl⟩

/-- A compound assignment either fails at a matrix cell or keeps the
dimensions and the amount of storage. -/
theorem NumericMatrix.add_assign_shape {α : Type} [Field α] (m : NumericMatrix α) (i j : Int)
    (x : α) :
    (∃ a b, m.add_assign i j x = .error (Err.subscript_out_of_bounds a b))
    ∨ ∃ m2, m.add_assign i j x = .ok m2 ∧ m2.nrow = m.nrow ∧ m2.ncol = m.ncol
        ∧ m2.data.length = m.data.length := by
  unfold NumericMatrix.add_assign
  cases hr : m.read i j with
  | error e =>
    left
    unfold NumericMatrix.read at hr
    split_ifs at hr
    · split at hr
      · cases hr
      · cases hr; exact ⟨_, _, rfl⟩
    · cases hr; exact ⟨_, _, rfl⟩
  | ok v => exact m.write_shape i j (v + x)


/-- The male-X loop of `geno2allele_matrix`, started at `trueg = t` on a matrix
with 72 rows and 576 cells, fails at the cell `(72, 8)`: the iterations
`t, ..., 7` stay inside the storage and the iteration `trueg = 8` leaves it. -/
theorem male_loop_fails {α : Type} [Field α] (k : Nat) :
    ∀ (t : Nat) (m : NumericMatrix α), t + k = 8 → m.nrow = 72 → m.data.length = 576 →
      (List.range' t (64 - t)).foldlM (fun (result : NumericMatrix α) (trueg : Nat) =>
          result.write ((trueg : Int) + ((64 : Nat) : Int)) (trueg : Int) 1) m
        = .error (Err.subscript_out_of_bounds 72 8) := by
  induction k with
  | zero =>
    intro t m ht hrow hlen
    have ht8 : t = 8 := by omega
    subst ht8
    have hw : m.write (((8 : Nat) : Int) + ((64 : Nat) : Int)) ((8 : Nat) : Int) 1
        = .error (Err.subscript_out_of_bounds 72 8) := by
      have := m.write_outside 72 8 (1 : α) (by rw [hrow, hlen]; decide)
      simpa using this
    show (List.foldlM _ m (8 :: List.range' 9 55)) = _
    rw [List.foldlM_cons, hw]
    rfl
  | succ k ih =>
    intro t m ht hrow hlen
    have hlt : t < 8 := by omega
    have hr : List.range' t (64 - t) = t :: List.range' (t + 1) (64 - (t + 1)) := by
      have : 64 - t = (64 - (t + 1)) + 1 := by omega
      rw [this, List.range'_succ]
    have hw : m.write ((t : Int) + ((64 : Nat) : Int)) (t : Int) 1
        = .ok { m with data := m.data.set (t + 64 + t * m.nrow) 1 } := by
      have := m.write_inside (t + 64) t (1 : α) (by rw [hrow, hlen]; omega)
      simpa using this
    rw [hr, List.foldlM_cons, hw]
    exact ih (t + 1) _ (by omega) hrow (by simpa using hlen)

/-- The allele loop of `geno2allele_matrix` either fails at a matrix cell or
keeps the dimensions and the amount of storage. -/
theorem allele_loop_shape {α : Type} [Field α] (E : Env α) (l : List Nat) :
    ∀ m : NumericMatrix α,
      (∃ a b, l.foldlM (fun (result : NumericMatrix α) (trueg : Nat) =>
          (result.add_assign (trueg : Int) ((E.mpp_decode_geno ((trueg : Int) + 1) 8 true).1 - 1)
            (1 / 2)).bind fun result =>
          result.add_assign (trueg : Int) ((E.mpp_decode_geno ((trueg : Int) + 1) 8 true).2 - 1)
            (1 / 2)) m = .error (Err.subscript_out_of_bounds a b))
      ∨ ∃ m2, l.foldlM (fun (result : NumericMatrix α) (trueg : Nat) =>
          (result.add_assign (trueg : Int) ((E.mpp_decode_geno ((trueg : Int) + 1) 8 true).1 - 1)
            (1 / 2)).bind fun result =>
          result.add_assign (trueg : Int) ((E.mpp_decode_geno ((trueg : Int) + 1) 8 true).2 - 1)
            (1 / 2)) m = .ok m2
        ∧ m2.nrow = m.nrow ∧ m2.ncol = m.ncol ∧ m2.data.length = m.data.length := by
  induction l with
  | nil => intro m; exact Or.inr ⟨m, rfl, rfl, rfl, rfl⟩
  | cons t l ih =>
    intro m
    rw [List.foldlM_cons]
    rcases m.add_assign_shape (t : Int) ((E.mpp_decode_geno ((t : Int) + 1) 8 true).1 - 1) (1 / 2)
      with ⟨a, b, h1⟩ | ⟨m1, h1, hr1, hc1, hl1⟩
    · left; exact ⟨a, b, by rw [h1]; rfl⟩
    · rcases m1.add_assign_shape (t : Int) ((E.mpp_decode_geno ((t : Int) + 1) 8 true).2 - 1)
        (1 / 2) with ⟨a, b, h2⟩ | ⟨m2, h2, hr2, hc2, hl2⟩
      · left; exact ⟨a, b, by rw [h1]; simp only [Except.bind]; rw [h2]; rfl⟩
      · have hstep : ((m.add_assign (t : Int)
            ((E.mpp_decode_geno ((t : Int) + 1) 8 true).1 - 1) (1 / 2)).bind fun result =>
            result.add_assign (t : Int) ((E.mpp_decode_geno ((t : Int) + 1) 8 true).2 - 1)
              (1 / 2)) = .ok m2 := by
          rw [h1]; simp only [Except.bind]; rw [h2]
        rw [hstep]
        rcases ih m2 with ⟨a, b, h3⟩ | ⟨m3, h3, hr3, hc3, hl3⟩
        · left; exact ⟨a, b, h3⟩
        · right
          exact ⟨m3, h3, by rw [hr3, hr2, hr1], by rw [hc3, hc2, hc1], by rw [hl3, hl2, hl1]⟩

/-- For an X chromosome `geno2allele_matrix` never returns a matrix. -/
theorem geno2allele_matrix_X_error {α : Type} [Field α] (E : Env α) :
    ∃ a b, geno2allele_matrix E true
      = (.error (Err.subscript_out_of_bounds a b) : Except Err (NumericMatrix α)) := by
  unfold geno2allele_matrix
  dsimp only
  rw [if_pos rfl]
  rcases allele_loop_shape E (List.range 64) (NumericMatrix.zeros (64 + 8) 8 : NumericMatrix α)
    with ⟨a, b, h⟩ | ⟨m2, h, hr, hc, hl⟩
  · exact ⟨a, b, by rw [h]; rfl⟩
  · refine ⟨72, 8, ?_⟩
    rw [h]
    simp only [Except.bind]
    have := male_loop_fails (α := α) 8 0 m2 rfl (by rw [hr]; rfl)
      (by rw [hl]; simp only [NumericMatrix.zeros, List.length_replicate])
    rw [List.range_eq_range']
    exact this


/-- Cells of a column-major matrix with `N` rows have distinct linear indices. -/
theorem offset_inj (N r k r2 k2 : Nat) (hr : r < N) (hr2 : r2 < N) :
    r + k * N = r2 + k2 * N ↔ r = r2 ∧ k = k2 := by
  constructor
  · intro h
    have hN : 0 < N := Nat.lt_of_le_of_lt (Nat.zero_le _) hr
    have hm := congrArg (fun x => x % N) h
    have hd := congrArg (fun x => x / N) h
    simp only [Nat.add_mul_mod_self_right, Nat.mod_eq_of_lt hr, Nat.mod_eq_of_lt hr2] at hm
    simp only [Nat.add_mul_div_right _ _ hN, Nat.div_eq_of_lt hr, Nat.div_eq_of_lt hr2,
      Nat.zero_add] at hd
    exact ⟨hm, hd⟩
  · rintro ⟨rfl, rfl⟩
    rfl

/-- A cell of a matrix with `N` rows and 8 columns lies inside `N * 8` cells. -/
theorem offset_lt (N r k : Nat) (hr : r < N) (hk : k < 8) : r + k * N < N * 8 := by
  have h1 : k * N ≤ 7 * N := Nat.mul_le_mul_right N (by omega)
  omega

/-- One iteration of the allele loop on a row that is still zero: both
compound assignments stay inside the matrix; afterwards the row holds 1/2 for
each of the two alleles and the other rows are unchanged. -/
theorem allele_step {α : Type} [Field α] (m : NumericMatrix α) (N n a b : Nat) (ia ib : Int)
    (hia : ia = (a : Int)) (hib : ib = (b : Int))
    (hrow : m.nrow = N) (hlen : m.data.length = N * 8)
    (hn : n < N) (ha : a < 8) (hb : b < 8)
    (hzero : ∀ k, k < 8 → m.data[n + k * N]? = some 0) :
    ∃ m2, ((m.add_assign (n : Int) ia (1 / 2)).bind fun result =>
          result.add_assign (n : Int) ib (1 / 2)) = .ok m2
      ∧ m2.nrow = N ∧ m2.ncol = m.ncol ∧ m2.data.length = N * 8
      ∧ ∀ r k, r < N → k < 8 →
        m2.data[r + k * N]? =
          if r = n then some ((if k = a then 1 / 2 else 0) + (if k = b then 1 / 2 else 0))
          else m.data[r + k * N]? := by
  subst hia hib hrow
  have h1 := m.add_assign_inside n a (1 / 2) 0 (hzero a ha)
  have hcell : (m.data.set (n + a * m.nrow) (0 + 1 / 2))[n + b * m.nrow]?
      = some (if a = b then (0 + 1 / 2 : α) else 0) := by
    rw [List.getElem?_set]
    by_cases hab : a = b
    · subst hab
      rw [if_pos rfl, if_pos (by rw [hlen]; exact offset_lt m.nrow n a hn ha), if_pos rfl]
    · have hne : ¬ n + a * m.nrow = n + b * m.nrow := fun h =>
        hab ((offset_inj m.nrow n a n b hn hn).1 h).2
      rw [if_neg hne, if_neg hab]
      exact hzero b hb
  have h2 := NumericMatrix.add_assign_inside
    ({ m with data := m.data.set (n + a * m.nrow) (0 + 1 / 2) } : NumericMatrix α) n b (1 / 2)
    (if a = b then (0 + 1 / 2 : α) else 0) hcell
  refine ⟨{ m with data := ((m.data.set (n + a * m.nrow) (0 + 1 / 2)).set (n + b * m.nrow)
      ((if a = b then (0 + 1 / 2 : α) else 0) + 1 / 2)) }, ?_, rfl, rfl, by simp [hlen], ?_⟩
  · rw [h1]
    simp only [Except.bind]
    exact h2
  intro r k hr hk
  show ((m.data.set (n + a * m.nrow) (0 + 1 / 2)).set (n + b * m.nrow) _)[r + k * m.nrow]? = _
  rw [List.getElem?_set, List.getElem?_set]
  have hl1 : n + a * m.nrow < m.data.length := by rw [hlen]; exact offset_lt m.nrow n a hn ha
  have hl2 : n + b * m.nrow < (m.data.set (n + a * m.nrow) (0 + 1 / 2)).length := by
    rw [List.length_set, hlen]; exact offset_lt m.nrow n b hn hb
  rw [if_pos hl1, if_pos hl2]
  by_cases hrn : r = n
  · subst hrn
    rw [if_pos rfl]
    by_cases hkb : k = b
    · subst hkb
      rw [if_pos rfl]
      by_cases hka : k = a
      · subst hka
        simp
      · have hak : ¬ a = k := fun h => hka h.symm
        simp [hka, hak]
    · have hne : ¬ r + b * m.nrow = r + k * m.nrow := fun h =>
        hkb ((offset_inj m.nrow r b r k hr hr).1 h).2.symm
      rw [if_neg hne]
      by_cases hka : k = a
      · subst hka
        simp [hkb]
      · have hne2 : ¬ r + a * m.nrow = r + k * m.nrow := fun h =>
          hka ((offset_inj m.nrow r a r k hr hr).1 h).2.symm
        rw [if_neg hne2]
        simp [hka, hkb, hzero k hk]
  · have hne1 : ¬ n + b * m.nrow = r + k * m.nrow := fun h =>
      hrn ((offset_inj m.nrow n b r k hn hr).1 h).1.symm
    have hne2 : ¬ n + a * m.nrow = r + k * m.nrow := fun h =>
      hrn ((offset_inj m.nrow n a r k hn hr).1 h).1.symm
    rw [if_neg hne1, if_neg hne2, if_neg hrn]


/-- After `n` iterations of the allele loop on the zero matrix with `N` rows
and 8 columns, with a decoder that maps the codes 1..64 to alleles in 1..8:
no access has left the matrix, the first `n` rows hold 1/2 for each decoded
allele, and the other rows are zero. -/
theorem allele_loop_inv {α : Type} [Field α] (E : Env α) (N : Nat) (hN : 64 ≤ N)
    (hdec : ∀ c : Int, 1 ≤ c → c ≤ 64 →
      (1 ≤ (E.mpp_decode_geno c 8 true).1 ∧ (E.mpp_decode_geno c 8 true).1 ≤ 8)
      ∧ 1 ≤ (E.mpp_decode_geno c 8 true).2 ∧ (E.mpp_decode_geno c 8 true).2 ≤ 8) :
    ∀ n, n ≤ 64 →
      ∃ m : NumericMatrix α,
        (List.range n).foldlM (fun (result : NumericMatrix α) (trueg : Nat) =>
          (result.add_assign (trueg : Int) ((E.mpp_decode_geno ((trueg : Int) + 1) 8 true).1 - 1)
            (1 / 2)).bind fun result =>
          result.add_assign (trueg : Int) ((E.mpp_decode_geno ((trueg : Int) + 1) 8 true).2 - 1)
            (1 / 2)) (NumericMatrix.zeros N 8) = .ok m
        ∧ m.nrow = N ∧ m.ncol = 8 ∧ m.data.length = N * 8
        ∧ ∀ r k, r < N → k < 8 →
          m.data[r + k * N]? = some (if r < n then
              (if (k : Int) + 1 = (E.mpp_decode_geno ((r : Int) + 1) 8 true).1 then 1 / 2 else 0)
              + (if (k : Int) + 1 = (E.mpp_decode_geno ((r : Int) + 1) 8 true).2 then 1 / 2 else 0)
            else 0) := by
  intro n
  induction n with
  | zero =>
    intro _
    refine ⟨NumericMatrix.zeros N 8, rfl, rfl, rfl, by simp [NumericMatrix.zeros], ?_⟩
    intro r k hr hk
    simp only [NumericMatrix.zeros, Nat.not_lt_zero, if_false]
    exact List.getElem?_replicate_of_lt (offset_lt N r k hr hk)
  | succ n ih =>
    intro hn
    obtain ⟨m, hm, hrow, hcol, hlen, hcells⟩ := ih (by omega)
    have hd := hdec ((n : Int) + 1) (by omega) (by omega)
    obtain ⟨m2, hstep, hrow2, hcol2, hlen2, hcells2⟩ :=
      allele_step m N n ((E.mpp_decode_geno ((n : Int) + 1) 8 true).1 - 1).toNat
        ((E.mpp_decode_geno ((n : Int) + 1) 8 true).2 - 1).toNat
        ((E.mpp_decode_geno ((n : Int) + 1) 8 true).1 - 1)
        ((E.mpp_decode_geno ((n : Int) + 1) 8 true).2 - 1)
        (by omega) (by omega) hrow hlen (by omega) (by omega) (by omega)
        (fun k hk => by
          have := hcells n k (by omega) hk
          rw [if_neg (Nat.lt_irrefl n)] at this
          exact this)
    refine ⟨m2, ?_, hrow2, by rw [hcol2, hcol], hlen2, ?_⟩
    · have hbind : ∀ (x : NumericMatrix α) (g : NumericMatrix α → Except Err (NumericMatrix α)),
          ((Except.ok x : Except Err (NumericMatrix α)) >>= g) = g x := fun _ _ => rfl
      rw [List.range_succ, List.foldlM_append, hm, hbind, List.foldlM_cons, hstep]
      rfl
    · intro r k hr hk
      rw [hcells2 r k hr hk]
      by_cases hrn : r = n
      · subst hrn
        rw [if_pos rfl, if_pos (Nat.lt_succ_self r)]
        have e1 : (k = ((E.mpp_decode_geno ((r : Int) + 1) 8 true).1 - 1).toNat)
            ↔ ((k : Int) + 1 = (E.mpp_decode_geno ((r : Int) + 1) 8 true).1) := by omega
        have e2 : (k = ((E.mpp_decode_geno ((r : Int) + 1) 8 true).2 - 1).toNat)
            ↔ ((k : Int) + 1 = (E.mpp_decode_geno ((r : Int) + 1) 8 true).2) := by omega
        simp only [e1, e2]
      · rw [if_neg hrn, hcells r k hr hk]
        have : r < n + 1 ↔ r < n := by omega
        simp only [this]

/-- The decoder modelled from the spec maps the codes 1..64 to alleles in 1..8. -/
theorem mpp_decode_geno_spec_range (c : Int) (h1 : 1 ≤ c) (h2 : c ≤ 64) :
    (1 ≤ (mpp_decode_geno_spec c 8 true).1 ∧ (mpp_decode_geno_spec c 8 true).1 ≤ 8)
    ∧ 1 ≤ (mpp_decode_geno_spec c 8 true).2 ∧ (mpp_decode_geno_spec c 8 true).2 ≤ 8 := by
  simp only [mpp_decode_geno_spec]
  omega

/-- C18: with a decoder mapping the codes 1..64 to alleles in 1..8.  For an
autosome every access of `geno2allele_matrix` is inside the 64 x 8 matrix: the
function returns.  For an X chromosome the claim fails on the code: the allele
loop stays inside the 72 x 8 matrix, but the male X loop runs `trueg` up to 63
and its access `result(trueg + 64, trueg)` at `trueg = 8` is the cell
`(72, 8)`, which has neither row below 72 nor column below 8. -/
theorem C18_geno2allele_matrix_access_bounds {α : Type} [Field α] (E : Env α)
    (hdec : ∀ c : Int, 1 ≤ c → c ≤ 64 →
      (1 ≤ (E.mpp_decode_geno c 8 true).1 ∧ (E.mpp_decode_geno c 8 true).1 ≤ 8)
      ∧ 1 ≤ (E.mpp_decode_geno c 8 true).2 ∧ (E.mpp_decode_geno c 8 true).2 ≤ 8) :
    (∃ m : NumericMatrix α, geno2allele_matrix E false = .ok m
      ∧ m.nrow = 64 ∧ m.ncol = 8 ∧ m.data.length = 64 * 8)
    ∧ geno2allele_matrix E true = .error (Err.subscript_out_of_bounds 72 8) := by
  constructor
  · obtain ⟨m, hm, hrow, hcol, hlen, -⟩ :=
      allele_loop_inv E 64 (le_refl _) hdec 64 (le_refl _)
    refine ⟨m, ?_, hrow, hcol, hlen⟩
    unfold geno2allele_matrix
    dsimp only
    rw [if_neg (by decide)]
    exact hm
  · obtain ⟨m, hm, hrow, hcol, hlen, -⟩ :=
      allele_loop_inv E 72 (by decide) hdec 64 (le_refl _)
    unfold geno2allele_matrix
    dsimp only
    rw [if_pos rfl]
    have h72 : (64 + 8 : Nat) = 72 := rfl
    rw [h72, hm]
    simp only [Except.bind]
    rw [List.range_eq_range']
    exact male_loop_fails 8 0 m rfl hrow hlen

/-- Witness for C18: the decoder modelled from the spec. -/
theorem C18_geno2allele_matrix_access_bounds_witness :
    geno2allele_matrix (sample_env (fun x : ℚ => x) false) true
      = .error (Err.subscript_out_of_bounds 72 8) :=
  (C18_geno2allele_matrix_access_bounds (sample_env (fun x : ℚ => x) false)
    mpp_decode_geno_spec_range).2


end DOPK
